import Mathlib

set_option maxHeartbeats 1000000

namespace Oppti

/- Shallow embedding of the quota/cache/rate-limit accounting subsystem of the
   oppti-backend repository.  JS strings are Lean `String` (or `List Char` in
   low-level helpers), JS numbers are `Rat` or `Int` as noted, JS objects and
   Maps are association lists.  External collaborators (the md5 digest from
   the crypto library, the OpenAI call, the plan table of services/license.js)
   are parameters.  Code of the repository that is not in the sources
   (services/quota.js) is modelled from the spec and marked as such. -/

/-- JS logical-or chain for an optional string with the empty string falsy, as in
`req.header(X-Site-Key) || default`. -/
def jsOrS (a : Option String) (b : String) : String :=
  match a with
  | some s => if s = "" then b else s
  | none => b

/-- JS truthiness of an optional string: undefined, null and the empty string are falsy. -/
def jsTruthyS (a : Option String) : Bool :=
  match a with
  | some s => decide (s ≠ "")
  | none => false

/-- JS `a || b` on an optional numeric field such as `license.billing_day_of_month || 1`:
null, undefined and 0 fall through to the default. -/
def jsOrNat (a : Option Nat) (b : Nat) : Nat :=
  match a with
  | some n => if n = 0 then b else n
  | none => b

/-- JS `Number(x) || null` for an already-numeric optional field: 0 and absence are falsy. -/
def numOrNull (a : Option Rat) : Option Rat :=
  match a with
  | some v => if v = 0 then none else some v
  | none => none

/-- JS truthiness of an optional number: null, undefined and 0 are falsy. -/
def jsTruthyR (a : Option Rat) : Bool :=
  match a with
  | some v => decide (v ≠ 0)
  | none => false

/-- supabase `.single()` destructured as `{ data }`: a row only when the filter
matched exactly one row, otherwise null. -/
def exactlyOne {α : Type} : List α → Option α
  | [x] => some x
  | _ => none

/-- First binding for a key in an association list (JS Map.get / object read). -/
def lookupAssoc {α : Type} : List (String × α) → String → Option α
  | [], _ => none
  | (k2, v) :: rest, k => if k2 = k then some v else lookupAssoc rest k

/-- JS Map.set: replace the first binding for the key, or append a new one. -/
def setAssoc {α : Type} : List (String × α) → String → α → List (String × α)
  | [], k, v => [(k, v)]
  | (k2, v2) :: rest, k, v =>
    if k2 = k then (k, v) :: rest else (k2, v2) :: setAssoc rest k v

/-- JS Math.round: round half toward positive infinity. -/
def jsRound (x : Rat) : Int := ⌊x + 1/2⌋

/-- Boolean prefix test on character lists (used for JS startsWith and key globbing). -/
def leadsWith : List Char → List Char → Bool
  | [], _ => true
  | _ :: _, [] => false
  | a :: as, b :: bs => a = b && leadsWith as bs

theorem leadsWith_length_le : ∀ {p s : List Char}, leadsWith p s = true → p.length ≤ s.length := by
  intro p
  induction p with
  | nil => intro s _; simp
  | cons a as ih =>
    intro s h
    cases s with
    | nil => simp [leadsWith] at h
    | cons b bs =>
      simp only [leadsWith, Bool.and_eq_true] at h
      simpa using ih h.2

/-- Worker for `jsSplit`: walks the string, emitting the accumulated segment each
time the separator is found, exactly like JS String.prototype.split with a
non-empty string separator. -/
def jsSplitGo (sep : List Char) (s : List Char) (acc : List Char) : List (List Char) :=
  if h : leadsWith sep s = true ∧ sep ≠ [] then
    acc :: jsSplitGo sep (s.drop sep.length) []
  else
    match s with
    | [] => [acc]
    | c :: rest => jsSplitGo sep rest (acc ++ [c])
termination_by s.length
decreasing_by
  · have hlen : sep.length ≤ s.length := leadsWith_length_le h.1
    have hpos : 0 < sep.length := List.length_pos.mpr h.2
    simp only [List.length_drop]
    omega
  · simp

/-- JS `value.split(sep)` for a fixed non-empty separator. -/
def jsSplit (sep : List Char) (s : List Char) : List (List Char) :=
  jsSplitGo sep s []

/- ------------------------------------------------------------------
   Calendar dates.  A JS Date is modelled by its local calendar
   components: year, month (0 to 11, as in getMonth) and day of month
   (1-based).  The time-of-day components play no role in the claims.
   ------------------------------------------------------------------ -/

structure Date where
  year : Int
  month : Int
  day : Int
deriving DecidableEq, Repr

/-- Gregorian leap-year rule, as implemented by the JS Date object. -/
def isLeapYear (y : Int) : Bool :=
  (y % 4 = 0 && y % 100 ≠ 0) || y % 400 = 0

/-- Number of days of month `m` (0-based) of year `y`. -/
def daysInMonth (y : Int) (m : Int) : Int :=
  if m = 3 ∨ m = 5 ∨ m = 8 ∨ m = 10 then 30
  else if m = 1 then (if isLeapYear y then 29 else 28)
  else 31

/-- The JS computation `periodEnd = new Date(periodStart); periodEnd.setMonth(periodEnd.getMonth() + 1)`
(part_001 lines 85-86 and 252-253): the month is incremented and a day-of-month
that does not exist in the new month overflows into the month after, exactly as
JS Date normalization does.  A single overflow step suffices for day ≤ 31. -/
def jsAddOneMonth (d : Date) : Date :=
  let y := if d.month + 1 > 11 then d.year + 1 else d.year
  let m := if d.month + 1 > 11 then 0 else d.month + 1
  let dim := daysInMonth y m
  if d.day ≤ dim then ⟨y, m, d.day⟩
  else
    let y2 := if m + 1 > 11 then y + 1 else y
    let m2 := if m + 1 > 11 then 0 else m + 1
    ⟨y2, m2, d.day - dim⟩

/-- Calendar-arithmetic month addition: one month after `d`, with a day-of-month
that does not exist in the target month clamped to its last day.  This is the
conventional meaning of `period_end = period_start + 1 month`. -/
def addMonthClamped (d : Date) : Date :=
  let y := if d.month + 1 > 11 then d.year + 1 else d.year
  let m := if d.month + 1 > 11 then 0 else d.month + 1
  ⟨y, m, min d.day (daysInMonth y m)⟩

/-- Modelled from the spec: `computePeriodStart` lives in services/quota.js, which
is not among the sources (only its callers are).  Per the spec, the period start
is anchored to the billing day of month, and if the anchor day does not exist in
the month of the reference instant the period starts on the last valid day of
that month; the testable property `computePeriodStart(31, Feb 15)` yields the
last day of February fixes the month to that of the reference instant. -/
def computePeriodStart (billingDay : Nat) (now : Date) : Date :=
  ⟨now.year, now.month, min (billingDay : Int) (daysInMonth now.year now.month)⟩

/-- part_001 lines 250-255: period bounds derived from the billing day and the
current instant; the end is the JS setMonth(+1) of the start. -/
def getPeriodBounds (billingDay : Nat) (now : Date) : Date × Date :=
  let start := computePeriodStart billingDay now
  (start, jsAddOneMonth start)

/- ------------------------------------------------------------------
   Image payload validation and normalization
   (fresh-stack/lib/validation.js, appended to altText.js at lines
   471-597 of the concatenated source file).
   ------------------------------------------------------------------ -/

/-- The request image object after zod parsing (requestSchema, altText.js 14-37):
every field optional, numbers may be fractional. -/
structure ImagePayload where
  base64 : Option String
  image_base64 : Option String
  url : Option String
  width : Option Rat
  height : Option Rat
  mime_type : Option String
  filename : Option String
deriving DecidableEq

/-- One character of the class `[A-Za-z0-9+/]` of BASE64_PATTERN. -/
def base64AlphaChar (c : Char) : Bool :=
  c.isAlpha || c.isDigit || c == '+' || c == '/'

/-- The regex test `^[A-Za-z0-9+/]*={0,2}$` (validation.js line 471): a body of
base64-alphabet characters followed by at most two padding signs.  The maximal
trailing run of padding is measured; the regex matches exactly when that run has
length at most two and everything before it is in the alphabet. -/
def base64PatternTest (s : String) : Bool :=
  let cs := s.data
  let pad := (cs.reverse.takeWhile (· == '=')).length
  decide (pad ≤ 2) && (cs.take (cs.length - pad)).all base64AlphaChar

/-- ASCII whitespace trimmed by JS String.prototype.trim (Unicode spaces are
trimmed too by JS but do not occur in base64 content). -/
def jsWhitespace (c : Char) : Bool :=
  c == ' ' || c == '\t' || c == '\n' || c == '\r' || c == '\x0b' || c == '\x0c'

/-- JS `s.trim()`. -/
def jsTrim (s : String) : String :=
  ⟨((s.data.dropWhile jsWhitespace).reverse.dropWhile jsWhitespace).reverse⟩

/-- validation.js lines 473-479: `stripDataUrl`.  A value starting with `data:`
is split on the string `base64,`; the destructuring `[, base64Part]` takes the
segment after the first separator (up to a second separator, as JS split does),
and `base64Part || ''` turns a missing segment into the empty string. -/
def stripDataUrl (value : String) : String :=
  if leadsWith "data:".data value.data then
    ⟨(jsSplit "base64,".data value.data).getD 1 []⟩
  else value

/-- validation.js lines 586-592: mime type guessed from the URL suffix. -/
def guessMimeFromUrl (url : String) : String :=
  let lower := url.toLower
  if lower.endsWith ".png" then "image/png"
  else if lower.endsWith ".webp" then "image/webp"
  else if lower.endsWith ".gif" then "image/gif"
  else "image/jpeg"

/-- The normalized payload built at validation.js lines 574-581. -/
structure NormalizedImage where
  base64 : Option String
  url : Option String
  width : Option Rat
  height : Option Rat
  filename : Option String
  mime_type : String
deriving DecidableEq

structure ValidationResult where
  errors : List String
  warnings : List String
  normalized : Option NormalizedImage
deriving DecidableEq

/-- Body of `validateImagePayload` once the raw base64 has been stripped of any
data-URL prefix: everything downstream of validation.js line 485 reads only
`rawBase64` and the non-base64 fields of the image, which are passed here
explicitly.  The interpolated numbers inside warning messages are elided; the
float constants are the exact decimal rationals written in the source. -/
def validateCore (rawBase64 : String) (iurl : Option String) (iwidth iheight : Option Rat)
    (ifilename imime : Option String) : ValidationResult :=
  let hasBase64 := rawBase64 ≠ ""
  let hasUrl := jsTruthyS iurl = true
  if ¬ hasBase64 ∧ ¬ hasUrl then
    { errors := ["Provide either base64/image_base64 or a public https image URL."],
      warnings := [], normalized := none }
  else
    let errorsChars : List String :=
      if hasBase64 ∧ ¬ base64PatternTest (jsTrim rawBase64) = true then
        ["Base64 data contains invalid characters. Ensure it is a clean base64 string without URL or metadata."]
      else []
    let width := numOrNull iwidth
    let height := numOrNull iheight
    let warnDims : List String :=
      if width = none ∨ height = none then
        ["Width and height are missing; include them to keep token costs predictable."]
      else []
    let maxDimension := max (width.getD 0) (height.getD 0)
    let warnResize : List String :=
      if maxDimension > 512 then
        ["Image exceeds 512px. Resize to 512px max for 50 percent token savings with no quality loss for alt text."]
      else []
    -- Size expectations (validation.js lines 513-567), only when base64 is present.
    let base64Length : Nat := rawBase64.length
    let decodedBytes : Int := jsRound ((base64Length : Rat) * 0.75)
    let base64SizeKB : Int := jsRound ((decodedBytes : Rat) / 1024)
    let pixelCount : Option Rat :=
      match width, height with
      | some w, some h => some (w * h)
      | _, _ => none
    let bytesPerPixel : Option Rat :=
      match pixelCount with
      | some p => if p = 0 then none else some ((decodedBytes : Rat) / p)
      | none => none
    let graySize :
        List String × List String :=
      match pixelCount with
      | some p =>
        if p ≠ 0 ∧ p > 50000 then
          let expectedMinRawKB : Rat := (p * 0.00625) / 1024
          let expectedMinSizeKB : Int := max (jsRound (expectedMinRawKB * 1.33)) 2
          let grayZoneThreshold : Int := expectedMinSizeKB * 5
          if base64SizeKB ≥ expectedMinSizeKB ∧ base64SizeKB < grayZoneThreshold then
            ([], ["Base64 size is smaller than expected for the reported dimensions. This may cause the model to process at full resolution. Consider resizing to 512px for cost savings."])
          else if base64SizeKB < expectedMinSizeKB ∧ (base64SizeKB : Rat) < 1 then
            (["Base64 size is extremely small for the reported dimensions. Image may be truncated or corrupted."], [])
          else ([], [])
        else if p ≠ 0 ∧ p ≤ 50000 then
          if (base64SizeKB : Rat) < 0.5 then
            (["Base64 size is extremely small for the reported dimensions. Image may be corrupted or truncated."], [])
          else ([], [])
        else ([], [])
      | none => ([], [])
    let warnBpp : List String :=
      match bytesPerPixel with
      | some bpp =>
        if bpp < 0.01 ∧ jsTruthyR pixelCount = true ∧ pixelCount.getD 0 > 100000 then
          ["Payload seems tiny for the reported dimensions. Verify the image is fully encoded."]
        else if bpp > 0.35 then
          ["Payload seems large for the reported dimensions. Resize or compress before sending."]
        else []
      | none =>
        if (base64SizeKB : Rat) < 5 ∧ jsTruthyR pixelCount = false ∧ (base64SizeKB : Rat) < 0.5 then
          ["Base64 payload is very small; ensure the image is not truncated."]
        else []
    let sizeGuards : List String × List String :=
      if (base64SizeKB : Rat) > 4096 then
        (["Base64 payload is too large. Resize before sending (target under 4096KB)."], [])
      else if (base64SizeKB : Rat) > 1024 then
        ([], ["Base64 payload is large. Consider resizing/compressing to stay under 1024KB to control token costs."])
      else ([], [])
    let errorsSize := if hasBase64 then graySize.1 ++ sizeGuards.1 else []
    let warnsSize := if hasBase64 then graySize.2 ++ warnBpp ++ sizeGuards.2 else []
    let warnHttps : List String :=
      if hasUrl ∧ ¬ leadsWith "https://".data (jsOrS iurl "").data = true then
        ["Image URL should be https to be fetchable by the model."]
      else []
    let normalized : NormalizedImage :=
      { base64 := if hasBase64 then some rawBase64 else none,
        url := if hasUrl then iurl else none,
        width := width, height := height,
        filename := if jsTruthyS ifilename then ifilename else none,
        mime_type :=
          jsOrS imime (jsOrS (if jsTruthyS iurl then some (guessMimeFromUrl (jsOrS iurl "")) else none) "image/jpeg") }
    { errors := errorsChars ++ errorsSize,
      warnings := warnDims ++ warnResize ++ warnsSize ++ warnHttps,
      normalized := some normalized }

/-- validation.js lines 481-584: `validateImagePayload`.  The raw base64 is
taken from `image.base64 || image.image_base64 || ''` and stripped of any
data-URL prefix before anything else looks at it. -/
def validateImagePayload (image : ImagePayload) : ValidationResult :=
  validateCore (stripDataUrl (jsOrS image.base64 (jsOrS image.image_base64 "")))
    image.url image.width image.height image.filename image.mime_type

/-- altText.js lines 94-95 (fixed route): the cache key is the md5 hash of the
post-normalization base64, or null when there is none.  The digest function is
an external collaborator (crypto md5) and is a parameter. -/
def cacheKeyOf (hash : String → String) (normalized : NormalizedImage) : Option String :=
  let normalizedBase64 := jsOrS normalized.base64 ""
  if normalizedBase64 ≠ "" then some (hash normalizedBase64) else none

/-- A data-URL wrapping `data:<mime>;base64,<content>` of some base64 content. -/
def mkDataUrl (mime b : String) : String :=
  ⟨"data:".data ++ mime.data ++ ";base64,".data ++ b.data⟩

/-- All characters of the string belong to the base64 alphabet or are padding:
the character set the validation contract expects of bare base64 content. -/
def b64Chars (s : String) : Bool :=
  s.data.all (fun c => base64AlphaChar c || c == '=')

/- ------------------------------------------------------------------
   Quota ledger and usage recorder (part_001: services/usage.js, plus
   the spec-modelled parts of services/quota.js and services/license.js).
   The supabase store is modelled as an in-memory database value.
   ------------------------------------------------------------------ -/

/-- A row of the `licenses` table, restricted to the columns this core reads. -/
structure License where
  license_key : String
  billing_day_of_month : Option Nat
  plan : String
deriving DecidableEq

/-- A row of the `quota_summaries` table. -/
structure QuotaSummary where
  id : Nat
  license_key : String
  period_start : Date
  period_end : Date
  total_credits_used : Nat
  total_limit : Nat
  site_usage : List (String × Nat)
deriving DecidableEq

/-- A row of the append-only `usage_logs` table (the payload built at
part_001 lines 27-45). -/
structure UsageLogEntry where
  license_key : Option String
  site_hash : String
  user_id : Option String
  user_email : Option String
  credits_used : Nat
  prompt_tokens : Option Int
  completion_tokens : Option Int
  total_tokens : Option Int
  cached : Bool
  model_used : String
  generation_time_ms : Option Int
  image_url : Option String
  image_filename : Option String
  plugin_version : Option String
  endpoint : String
  status : String
  error_message : Option String
deriving DecidableEq

/-- The persistent store.  `nextId` supplies fresh primary keys for inserted
quota summaries. -/
structure Db where
  licenses : List License
  quota_summaries : List QuotaSummary
  usage_logs : List UsageLogEntry
  nextId : Nat
deriving DecidableEq

/-- The license row matching a key, through supabase `.single()`. -/
def dbSingleLicense (db : Db) (licenseKey : String) : Option License :=
  exactlyOne (db.licenses.filter (fun l => l.license_key == licenseKey))

/-- The row filter `.eq(license_key, ...).eq(period_start, ...)`. -/
def matchesSum (licenseKey : String) (periodStart : Date) (s : QuotaSummary) : Bool :=
  s.license_key == licenseKey && s.period_start == periodStart

/-- Rows matching one `(license_key, period_start)` pair. -/
def summariesFor (db : Db) (licenseKey : String) (periodStart : Date) : List QuotaSummary :=
  db.quota_summaries.filter (matchesSum licenseKey periodStart)

/-- The current period summary, through supabase `.maybeSingle()` destructured as
`{ data }`: a row only when the filter matched exactly one row. -/
def dbMaybeSingleSummary (db : Db) (licenseKey : String) (periodStart : Date) : Option QuotaSummary :=
  exactlyOne (summariesFor db licenseKey periodStart)

/-- JS `siteUsage[siteHash] = (siteUsage[siteHash] || 0) + creditsUsed` on an
object with unique keys. -/
def bumpSite : List (String × Nat) → String → Nat → List (String × Nat)
  | [], k, v => [(k, v)]
  | (k2, v2) :: rest, k, v =>
    if k2 = k then (k2, v2 + v) :: rest else (k2, v2) :: bumpSite rest k v

/-- Sum of the per-site credit counts of a `site_usage` object. -/
def siteSum (m : List (String × Nat)) : Nat :=
  (m.map (fun kv => kv.2)).sum

/-- part_001 lines 73-151: `updateQuotaSummary`.  Looks up the license (absent
license: return unchanged), derives the current period, then either increments
the existing summary row or inserts a fresh one.  `getLimits` of
services/license.js is not among the sources; per the spec the plan maps to a
credit allowance, so it is an external parameter.  The summary writes are
modelled as succeeding (the store is the external collaborator); the
`updated_at` timestamp column is not modelled. -/
def updateQuotaSummary (getLimits : String → Nat) (now : Date) (db : Db)
    (licenseKey : String) (creditsUsed : Nat) (siteHash : String) : Db :=
  match dbSingleLicense db licenseKey with
  | none => db
  | some license =>
    let billingDay := jsOrNat license.billing_day_of_month 1
    let periodStart := computePeriodStart billingDay now
    let periodEnd := jsAddOneMonth periodStart
    let totalLimit := getLimits license.plan
    match dbMaybeSingleSummary db licenseKey periodStart with
    | some existing =>
      let newTotalCredits := existing.total_credits_used + creditsUsed
      let siteUsage := bumpSite existing.site_usage siteHash creditsUsed
      { db with
        quota_summaries := db.quota_summaries.map (fun s =>
          if s.id = existing.id then
            { s with total_credits_used := newTotalCredits, site_usage := siteUsage }
          else s) }
    | none =>
      { db with
        quota_summaries := db.quota_summaries ++
          [{ id := db.nextId, license_key := licenseKey,
             period_start := periodStart, period_end := periodEnd,
             total_credits_used := creditsUsed, total_limit := totalLimit,
             site_usage := [(siteHash, creditsUsed)] }],
        nextId := db.nextId + 1 }

/-- Arguments of `recordUsage` (part_001 lines 7-26); optional fields whose JS
default is applied inside. -/
structure UsageArgs where
  licenseKey : Option String
  siteHash : String
  userId : Option String
  userEmail : Option String
  creditsUsed : Option Nat
  promptTokens : Option Int
  completionTokens : Option Int
  totalTokens : Option Int
  cached : Option Bool
  modelUsed : Option String
  generationTimeMs : Option Int
  imageUrl : Option String
  imageFilename : Option String
  pluginVersion : Option String
  endpoint : Option String
  status : Option String
  errorMessage : Option String
deriving DecidableEq

/-- The insert payload of part_001 lines 27-45.  `total_tokens` falls back via
nullish coalescing to `promptTokens + completionTokens` when both are truthy. -/
def usagePayload (a : UsageArgs) : UsageLogEntry :=
  { license_key := a.licenseKey,
    site_hash := a.siteHash,
    user_id := a.userId,
    user_email := a.userEmail,
    credits_used := a.creditsUsed.getD 1,
    prompt_tokens := a.promptTokens,
    completion_tokens := a.completionTokens,
    total_tokens :=
      match a.totalTokens with
      | some t => some t
      | none =>
        match a.promptTokens, a.completionTokens with
        | some p, some c => if p ≠ 0 ∧ c ≠ 0 then some (p + c) else none
        | _, _ => none,
    cached := a.cached.getD false,
    model_used := a.modelUsed.getD "gpt-4o-mini",
    generation_time_ms := a.generationTimeMs,
    image_url := a.imageUrl,
    image_filename := a.imageFilename,
    plugin_version := a.pluginVersion,
    endpoint := a.endpoint.getD "api/alt-text",
    status := a.status.getD "success",
    error_message := a.errorMessage }

/-- part_001 lines 7-68: `recordUsage`.  The durable insert into `usage_logs`
is the one store operation whose failure the code handles, so its outcome is
the oracle `insertOk`.  On a failed insert nothing is written and the error is
returned; on success the quota summary is updated whenever the license key is
truthy.  Returns the new store and the error of the insert. -/
def recordUsage (insertOk : Bool) (getLimits : String → Nat) (now : Date)
    (db : Db) (a : UsageArgs) : Db × Option String :=
  if insertOk then
    let db2 : Db := { db with usage_logs := db.usage_logs ++ [usagePayload a] }
    match a.licenseKey with
    | some k =>
      if k ≠ "" then
        (updateQuotaSummary getLimits now db2 k (a.creditsUsed.getD 1) a.siteHash, none)
      else (db2, none)
    | none => (db2, none)
  else (db, some "usage log insert failed")

/-- The `recordUsage` argument record used by the alt-text route for one
1-credit consumption by `site` under `key` (altText.js lines 163-180, with the
collaborator-supplied metric fields left out). -/
def consumeArgs (key site : String) : UsageArgs :=
  { licenseKey := some key, siteHash := site,
    userId := none, userEmail := none,
    creditsUsed := some 1,
    promptTokens := none, completionTokens := none, totalTokens := none,
    cached := some false, modelUsed := none, generationTimeMs := none,
    imageUrl := none, imageFilename := none, pluginVersion := none,
    endpoint := some "api/alt-text", status := some "success",
    errorMessage := none }

/-- One successful 1-credit consumption recording. -/
def consumeOne (getLimits : String → Nat) (now : Date) (key site : String) (db : Db) : Db :=
  (recordUsage true getLimits now db (consumeArgs key site)).1

/-- N sequential successful 1-credit consumption recordings, one per listed
site, all for the same license and reference instant. -/
def recordUsageN (getLimits : String → Nat) (now : Date) (key : String)
    (sites : List String) (db : Db) : Db :=
  sites.foldl (fun acc site => consumeOne getLimits now key site acc) db

/-- The invariant carried across sequential consumption recordings: the
licenses are untouched, ids of summary rows stay below the id counter, and the
summaries split around exactly one row for the (license, period) pair whose
running total and per-site sum both equal the credits recorded so far. -/
def InvPos (key : String) (ps : Date) (L0 : List License) (k : Nat) (db : Db) : Prop :=
  db.licenses = L0 ∧
  (∀ s ∈ db.quota_summaries, s.id < db.nextId) ∧
  ∃ pre post r,
    db.quota_summaries = pre ++ r :: post ∧
    (∀ s ∈ pre, matchesSum key ps s = false ∧ s.id ≠ r.id) ∧
    (∀ s ∈ post, matchesSum key ps s = false ∧ s.id ≠ r.id) ∧
    matchesSum key ps r = true ∧
    r.total_credits_used = k ∧
    siteSum r.site_usage = k

/-- The structured condition thrown on quota exhaustion, carrying the payload
the route serializes at altText.js lines 67-74. -/
structure QuotaError where
  code : String
  credits_used : Nat
  total_limit : Nat
  reset_date : Date
deriving DecidableEq

/-- Modelled from the spec: `enforceQuota` lives in services/quota.js, which is
not among the sources (only its caller at altText.js line 65 is).  Per the
spec it loads (or treats as zero) the current period total_credits_used and the
plan-derived total_limit, and fails with a QUOTA_EXCEEDED condition carrying
credits_used, total_limit and reset_date exactly when
`total_credits_used + creditsNeeded > total_limit`.  The spec leaves the
unknown-license case open; in line with the tolerance it demands of
getQuotaStatus, an unknown or absent license key is not rejected here. -/
def enforceQuota (getLimits : String → Nat) (now : Date) (db : Db)
    (licenseKey : Option String) (creditsNeeded : Nat) : Except QuotaError Unit :=
  match licenseKey.bind (fun k => dbSingleLicense db k) with
  | none => .ok ()
  | some license =>
    let billingDay := jsOrNat license.billing_day_of_month 1
    let periodStart := computePeriodStart billingDay now
    let creditsUsed :=
      match dbMaybeSingleSummary db (jsOrS licenseKey "") periodStart with
      | some s => s.total_credits_used
      | none => 0
    let totalLimit := getLimits license.plan
    if creditsUsed + creditsNeeded > totalLimit then
      .error { code := "QUOTA_EXCEEDED", credits_used := creditsUsed,
               total_limit := totalLimit, reset_date := jsAddOneMonth periodStart }
    else .ok ()

/- ------------------------------------------------------------------
   Per-site rate limiter (checkRateLimit of the server wiring,
   BUG_FIX_WRONG_ALT_TEXT.md lines 635-660).  The altTextRateLimits Map
   is an association list from site key to recorded timestamps in
   milliseconds; `Math.random() < 0.01` is the oracle `gcNow`.
   ------------------------------------------------------------------ -/

/-- The opportunistic cleanup loop (lines 648-657): every entry is pruned to
the current window and emptied entries are deleted. -/
def gcSweep (windowStart : Int) (m : List (String × List Int)) : List (String × List Int) :=
  (m.map (fun kv => (kv.1, kv.2.filter (fun ts => windowStart ≤ ts)))).filter
    (fun kv => !kv.2.isEmpty)

/-- `checkRateLimit(siteKey)`: hardcoded 60-second window and limit of 60;
the recorded hits are pruned to the window, the current attempt is recorded
regardless of the outcome, and admission holds while the recorded recent
attempts (the current one included) do not exceed the limit. -/
def checkRateLimit (gcNow : Bool) (limits : List (String × List Int))
    (siteKey : String) (now : Int) : Bool × List (String × List Int) :=
  let windowMs : Int := 60000
  let limit : Nat := 60
  let windowStart := now - windowMs
  let hits := (lookupAssoc limits siteKey).getD []
  let recent := hits.filter (fun ts => windowStart ≤ ts)
  let recent2 := recent ++ [now]
  let limits2 := setAssoc limits siteKey recent2
  let limits3 := cond gcNow (gcSweep windowStart limits2) limits2
  (decide (recent2.length ≤ limit), limits3)

/-- A sequence of rate-limit checks for one site at the given instants,
threading the recorded-timestamp state and collecting the admission results. -/
def runChecks (gcNow : Bool) (siteKey : String) (times : List Int)
    (limits : List (String × List Int)) : List Bool × List (String × List Int) :=
  times.foldl (fun acc t =>
    let r := checkRateLimit gcNow acc.2 siteKey t
    (acc.1 ++ [r.1], r.2)) ([], limits)

/- ------------------------------------------------------------------
   The alt-text route (the fixed createAltTextRouter, altText.js lines
   39-254) and the admin flush (part_002).
   ------------------------------------------------------------------ -/

/-- Token/latency block of a generation result. -/
structure UsageStats where
  prompt_tokens : Option Int
  completion_tokens : Option Int
  total_tokens : Option Int
  credits_remaining : Option Int
deriving DecidableEq

structure GenMeta where
  modelUsed : Option String
  generation_time_ms : Option Int
deriving DecidableEq

/-- What the external `generateAltText` collaborator returns. -/
structure GenResult where
  altText : String
  usage : Option UsageStats
  meta : Option GenMeta
deriving DecidableEq

/-- The serialized object cached at altText.js line 189. -/
structure CachePayload where
  altText : String
  warnings : List String
  usage : Option UsageStats
  meta : Option GenMeta
deriving DecidableEq

/-- The redis client: stored entries plus the failure oracles of the two
operations the route guards (a throwing `get` at lines 117-125, a rejecting
`set` whose rejection is swallowed by `.catch` at line 191).  The 7-day TTL
of stored entries is not part of any claim and is not modelled. -/
structure RedisState where
  entries : List (String × CachePayload)
  getFails : Bool
  setFails : Bool
deriving DecidableEq

/-- Request data the route reads: the zod-parsed body, the headers and query
parameters it consults, and the identity the auth middleware attached. -/
structure Req where
  image : ImagePayload
  bodyRegenerate : Option Bool
  queryRegenerate : Option String
  queryNoCache : Option String
  headerBypassCache : Option String
  headerSiteKey : Option String
  headerLicenseKey : Option String
  reqLicenseKey : Option String
  userId : Option String
  userEmail : Option String
  pluginVersion : Option String
deriving DecidableEq

/-- Mutable state a request runs against. -/
structure RouteState where
  db : Db
  redis : Option RedisState
  resultCache : List (String × CachePayload)
  rateLimits : List (String × List Int)
deriving DecidableEq

/-- Per-request environment: the outcome of the external collaborators and
oracles.  `hash` is the crypto md5 hex digest; `getLimits` is the plan table of
services/license.js (not among the sources; per the spec a plan maps to its
credit allowance); `gen` is what the OpenAI call returns; `usageInsertOk` is
the durable-insert outcome; `rateGc` is the Math.random() < 0.01 draw. -/
structure RouteEnv where
  hash : String → String
  getLimits : String → Nat
  gen : GenResult
  usageInsertOk : Bool
  rateGc : Bool
  nowMs : Int
  nowDate : Date

/-- The JSON responses of the route, restricted to the fields the claims
inspect. -/
inductive RouteResponse where
  | invalidRequest : RouteResponse
  | validationFailed (errors warnings : List String) : RouteResponse
  | quotaExceeded (code : String) (credits_used total_limit : Nat) (reset_date : Date) : RouteResponse
  | rateLimited : RouteResponse
  | cachedHit (payload : CachePayload) : RouteResponse
  | freshResult (altText : String) (usage : Option UsageStats) (modelUsed : Option String) : RouteResponse
  | internalError : RouteResponse
deriving DecidableEq

/-- altText.js line 60: the regenerate flag in body or query. -/
def regenerateOf (req : Req) : Bool :=
  decide (req.bodyRegenerate = some true) ||
  decide (req.queryRegenerate = some "true") ||
  decide (req.queryRegenerate = some "1")

/-- altText.js line 61: any cache-bypass signal. -/
def bypassOf (req : Req) : Bool :=
  regenerateOf req ||
  decide (req.headerBypassCache = some "true") ||
  decide (req.queryNoCache = some "1")

/-- The zod refine at altText.js lines 25-28: some image content reference must
be truthy. -/
def schemaRefineOk (image : ImagePayload) : Bool :=
  jsTruthyS image.base64 || jsTruthyS image.image_base64 || jsTruthyS image.url

/-- altText.js line 55: `req.header(X-Site-Key) || default`. -/
def siteKeyOf (req : Req) : String := jsOrS req.headerSiteKey "default"

/-- altText.js line 57: the license key from the header or from the
JWT-authenticated request. -/
def licenseKeyOf (req : Req) : Option String :=
  if jsTruthyS req.headerLicenseKey then req.headerLicenseKey else req.reqLicenseKey

/-- The POST / handler of the fixed createAltTextRouter (altText.js lines
48-212): schema check, quota enforcement, rate limit, validation and
normalization, normalized-key cache read, generation, usage recording,
normalized-key cache write.  Responses and the threaded state are returned. -/
def handleAltText (env : RouteEnv) (req : Req) (st : RouteState) :
    RouteResponse × RouteState :=
  if ¬ schemaRefineOk req.image = true then (.invalidRequest, st)
  else
    let siteKey := siteKeyOf req
    let licenseKey : Option String := licenseKeyOf req
    let bypassCache := bypassOf req
    match enforceQuota env.getLimits env.nowDate st.db licenseKey 1 with
    | .error e =>
      (.quotaExceeded (if e.code = "" then "QUOTA_EXCEEDED" else e.code)
        e.credits_used e.total_limit e.reset_date, st)
    | .ok _ =>
      let rl := checkRateLimit env.rateGc st.rateLimits siteKey env.nowMs
      let st1 : RouteState := { st with rateLimits := rl.2 }
      if rl.1 = false then (.rateLimited, st1)
      else
        let v := validateImagePayload req.image
        if ¬ v.errors = [] then (.validationFailed v.errors v.warnings, st1)
        else
          match v.normalized with
          | none => (.internalError, st1)
          | some normalized =>
            let cacheKey := cacheKeyOf env.hash normalized
            let hit : Option CachePayload :=
              match cacheKey, bypassCache with
              | some key, false =>
                match st1.redis with
                | some r =>
                  if r.getFails then none
                  else lookupAssoc r.entries ("alttext:cache:" ++ key)
                | none => lookupAssoc st1.resultCache key
              | _, _ => none
            match hit with
            | some cached => (.cachedHit cached, st1)
            | none =>
              let gen := env.gen
              let rec1 := recordUsage env.usageInsertOk env.getLimits env.nowDate st1.db
                { licenseKey := licenseKey, siteHash := siteKey,
                  userId := req.userId, userEmail := req.userEmail,
                  creditsUsed := some 1,
                  promptTokens := gen.usage.bind (fun u => u.prompt_tokens),
                  completionTokens := gen.usage.bind (fun u => u.completion_tokens),
                  totalTokens := gen.usage.bind (fun u => u.total_tokens),
                  cached := some false,
                  modelUsed := gen.meta.bind (fun m => m.modelUsed),
                  generationTimeMs := gen.meta.bind (fun m => m.generation_time_ms),
                  imageUrl := normalized.url, imageFilename := normalized.filename,
                  pluginVersion := req.pluginVersion,
                  endpoint := some "api/alt-text", status := some "success",
                  errorMessage := none }
              let st2 : RouteState := { st1 with db := rec1.1 }
              let st3 : RouteState :=
                match cacheKey, bypassCache with
                | some key, false =>
                  let payload : CachePayload :=
                    { altText := gen.altText, warnings := v.warnings,
                      usage := gen.usage, meta := gen.meta }
                  match st2.redis with
                  | some r =>
                    if r.setFails then st2
                    else { st2 with redis := some { r with
                      entries := setAssoc r.entries ("alttext:cache:" ++ key) payload } }
                  | none => { st2 with resultCache := setAssoc st2.resultCache key payload }
                | _, _ => st2
              (.freshResult gen.altText gen.usage (gen.meta.bind (fun m => m.modelUsed)), st3)

/-- Responses of the flush-cache endpoints. -/
inductive FlushResponse where
  | unauthorized : FlushResponse
  | flushed (keysDeleted : Nat) : FlushResponse
deriving DecidableEq

/-- Redis half of both flush endpoints: all keys matching `alttext:cache:*`
are deleted and counted. -/
def redisFlush (r : RedisState) : Nat × RedisState :=
  let keys := (r.entries.filter (fun kv => leadsWith "alttext:cache:".data kv.1.data)).map (fun kv => kv.1)
  (keys.length, { r with entries := r.entries.filter (fun kv => ¬ leadsWith "alttext:cache:".data kv.1.data = true) })

/-- The admin-key gate shared by both flush endpoints: the header must equal
the ADMIN_KEY environment value or the hardcoded fallback. -/
def adminKeyOk (envAdminKey adminKey : Option String) : Bool :=
  !(decide (adminKey ≠ envAdminKey) && decide (adminKey ≠ some "flush-cache-2026"))

/-- part_002 lines 8-43: the POST /admin/flush-cache handler.  In the
in-memory branch the size is read before the map is cleared. -/
def adminFlushCache (envAdminKey adminKey : Option String)
    (redis : Option RedisState) (resultCache : Option (List (String × CachePayload))) :
    FlushResponse × Option RedisState × Option (List (String × CachePayload)) :=
  if adminKeyOk envAdminKey adminKey = false then (.unauthorized, redis, resultCache)
  else
    match redis with
    | some r =>
      let fr := redisFlush r
      (.flushed fr.1, some fr.2, resultCache)
    | none =>
      match resultCache with
      | some c => (.flushed c.length, none, some [])
      | none => (.flushed 0, none, none)

/-- altText.js lines 215-251: the POST /api/alt-text/flush-cache handler.  In
the in-memory branch the map is cleared first and `flushed` is then read from
`resultCache.size`, which is already 0. -/
def altTextFlushCache (envAdminKey adminKey : Option String)
    (redis : Option RedisState) (resultCache : List (String × CachePayload)) :
    FlushResponse × Option RedisState × List (String × CachePayload) :=
  if adminKeyOk envAdminKey adminKey = false then (.unauthorized, redis, resultCache)
  else
    match redis with
    | some r =>
      let fr := redisFlush r
      (.flushed fr.1, some fr.2, resultCache)
    | none =>
      let cleared : List (String × CachePayload) := []
      (.flushed cleared.length, none, cleared)

/-- A concrete cached result used to instantiate cache states. -/
def samplePayload (t : String) : CachePayload :=
  { altText := t, warnings := [], usage := none, meta := none }

/-- A concrete reference instant: Jan 15 2026. -/
def wNow : Date := ⟨2026, 0, 15⟩

/-- A concrete license anchored to billing day 5. -/
def wLicense : License :=
  { license_key := "LIC", billing_day_of_month := some 5, plan := "pro" }

/-- A concrete plan table granting 50 credits. -/
def wGetLimits : String → Nat := fun _ => 50

/-- A concrete summary of the running period with 49 of 50 credits used. -/
def wSummary : QuotaSummary :=
  { id := 0,
    license_key := "LIC",
    period_start := ⟨2026, 0, 5⟩,
    period_end := ⟨2026, 1, 5⟩,
    total_credits_used := 49,
    total_limit := 50,
    site_usage := [("acme", 49)] }

/-- A concrete store: one license and one summary of the current period with
49 of 50 credits used. -/
def wDb : Db :=
  { licenses := [wLicense],
    quota_summaries := [wSummary],
    usage_logs := [],
    nextId := 1 }

/-- A concrete store with the license but no summary yet. -/
def wDb0 : Db :=
  { licenses := [wLicense],
    quota_summaries := [],
    usage_logs := [],
    nextId := 0 }

/-- A stand-in digest used to instantiate the hash parameter. -/
def wHash : String → String := fun s => s

/-- A concrete generation result. -/
def wGen : GenResult := { altText := "alt", usage := none, meta := none }

/-- A concrete per-request environment. -/
def wEnv : RouteEnv :=
  { hash := wHash, getLimits := wGetLimits, gen := wGen,
    usageInsertOk := true, rateGc := false, nowMs := 0, nowDate := wNow }

/-- A concrete bare-base64 image payload. -/
def wImage : ImagePayload :=
  { base64 := some "QUJD", image_base64 := none, url := none,
    width := none, height := none, mime_type := none, filename := none }

/-- The normalized form of `wImage`. -/
def wNorm : NormalizedImage :=
  { base64 := some "QUJD", url := none, width := none, height := none,
    filename := none, mime_type := "image/jpeg" }

/-- A plain request carrying `wImage` and no special headers. -/
def wReq : Req :=
  { image := wImage, bodyRegenerate := none, queryRegenerate := none,
    queryNoCache := none, headerBypassCache := none, headerSiteKey := none,
    headerLicenseKey := none, reqLicenseKey := none,
    userId := none, userEmail := none, pluginVersion := none }

/-- A request state whose in-memory cache holds the normalized key. -/
def wStHit : RouteState :=
  { db := wDb0, redis := none,
    resultCache := [("QUJD", samplePayload "cached")], rateLimits := [] }

/-- A request state with an empty in-memory cache. -/
def wStMiss : RouteState :=
  { db := wDb0, redis := none, resultCache := [], rateLimits := [] }

/-- A redis client holding the normalized key but whose get operation
throws. -/
def wRedisGet : RedisState :=
  { entries := [("alttext:cache:QUJD", samplePayload "cached")],
    getFails := true, setFails := false }

/-- A request state backed by the failing redis client. -/
def wStRedis : RouteState :=
  { db := wDb0, redis := some wRedisGet, resultCache := [], rateLimits := [] }

/- ==================================================================
   Helper lemmas
   ================================================================== -/

theorem jsOrS_some_self (s b : String) : jsOrS (some s) b = if s = "" then b else s := rfl

theorem jsOrS_some_empty (s : String) : jsOrS (some s) "" = s := by
  by_cases h : s = "" <;> simp [jsOrS, h]

theorem lookup_setAssoc_self {α : Type} (m : List (String × α)) (k : String) (v : α) :
    lookupAssoc (setAssoc m k v) k = some v := by
  induction m with
  | nil => simp [setAssoc, lookupAssoc]
  | cons kv rest ih =>
    obtain ⟨k2, v2⟩ := kv
    by_cases h : k2 = k
    · simp [setAssoc, lookupAssoc, h]
    · simp [setAssoc, lookupAssoc, h, ih]

/- ==================================================================
   C3: billing period arithmetic
   ================================================================== -/

/-- C3 counterexample: with billing day 31 and reference instant Jan 15 2026
the period starts on Jan 31; the JS setMonth(+1) derivation lands on Mar 3,
which is not one month after the period start (Feb 28), so
`period_end = period_start + 1 month` fails on the code for this input. -/
theorem claim_C3_counterexample :
    (getPeriodBounds 31 ⟨2026, 0, 15⟩).1 = ⟨2026, 0, 31⟩ ∧
    (getPeriodBounds 31 ⟨2026, 0, 15⟩).2 = ⟨2026, 2, 3⟩ ∧
    addMonthClamped (getPeriodBounds 31 ⟨2026, 0, 15⟩).1 = ⟨2026, 1, 28⟩ ∧
    (getPeriodBounds 31 ⟨2026, 0, 15⟩).2 ≠ addMonthClamped (getPeriodBounds 31 ⟨2026, 0, 15⟩).1 := by
  refine ⟨by decide, by decide, by decide, by decide⟩

/-- C3 (amended): whenever the derived period start has a day-of-month that
exists in the following month, the derived period end is exactly one calendar
month after the start; and in particular `computePeriodStart(31, Feb 15 2026)`
yields Feb 28, the last day of February, a valid date, whose derived end
Mar 28 is exactly one month later. -/
theorem claim_C3_period_arithmetic (billingDay : Nat) (now : Date)
    (h : (getPeriodBounds billingDay now).1.day ≤
         daysInMonth (addMonthClamped (getPeriodBounds billingDay now).1).year
                     (addMonthClamped (getPeriodBounds billingDay now).1).month) :
    (getPeriodBounds billingDay now).2 = addMonthClamped (getPeriodBounds billingDay now).1 ∧
    computePeriodStart 31 ⟨2026, 1, 15⟩ = ⟨2026, 1, 28⟩ ∧
    (getPeriodBounds 31 ⟨2026, 1, 15⟩).2 = ⟨2026, 2, 28⟩ ∧
    addMonthClamped ⟨2026, 1, 28⟩ = ⟨2026, 2, 28⟩ := by
  refine ⟨?_, by decide, by decide, by decide⟩
  set s := (getPeriodBounds billingDay now).1 with hs
  show jsAddOneMonth s = addMonthClamped s
  simp only [addMonthClamped] at h ⊢
  simp only [jsAddOneMonth]
  by_cases hm : s.month + 1 > 11 <;>
    simp only [hm, if_true, if_false, ite_true, ite_false] at h ⊢ <;>
    rw [if_pos h] <;>
    simp [min_eq_left h]

/-- Lookup after a garbage-collection sweep: the first binding of a key keeps
its pruned value whenever that pruned value is non-empty. -/
theorem lookup_gcSweep (ws : Int) (m : List (String × List Int)) (k : String) (v : List Int)
    (hl : lookupAssoc m k = some v)
    (hne : v.filter (fun ts => ws ≤ ts) ≠ []) :
    lookupAssoc (gcSweep ws m) k = some (v.filter (fun ts => ws ≤ ts)) := by
  induction m with
  | nil => simp [lookupAssoc] at hl
  | cons kv rest ih =>
    obtain ⟨k2, v2⟩ := kv
    by_cases h : k2 = k
    · subst h
      have hv : v2 = v := by simpa [lookupAssoc] using hl
      subst hv
      simp only [gcSweep, List.map_cons, List.filter_cons]
      have hkeep : (!(v2.filter (fun ts => ws ≤ ts)).isEmpty) = true := by
        simpa [List.isEmpty_iff] using hne
      simp [hkeep, lookupAssoc]
    · simp only [lookupAssoc, if_neg h] at hl
      have hrec := ih hl
      simp only [gcSweep, List.map_cons, List.filter_cons] at hrec ⊢
      by_cases hk : (!(v2.filter (fun ts => ws ≤ ts)).isEmpty) = true
      · simp [hk, lookupAssoc, h, hrec]
      · simp only [Bool.not_eq_true] at hk
        simp [hk, hrec]

/-- Every rate-limit check records the current attempt, whatever the admission
outcome and whether or not the opportunistic cleanup ran. -/
theorem rl_records (g : Bool) (lm : List (String × List Int)) (site : String) (t : Int) :
    t ∈ (lookupAssoc (checkRateLimit g lm site t).2 site).getD [] := by
  have hset := lookup_setAssoc_self lm site
    ((((lookupAssoc lm site).getD []).filter (fun ts => t - 60000 ≤ ts)) ++ [t])
  have hmem : t ∈ ((((lookupAssoc lm site).getD []).filter (fun ts => t - 60000 ≤ ts)) ++ [t]).filter
      (fun ts => t - 60000 ≤ ts) := by
    rw [List.mem_filter]
    refine ⟨by simp, by simp only [decide_eq_true_eq]; omega⟩
  have hne : ((((lookupAssoc lm site).getD []).filter (fun ts => t - 60000 ≤ ts)) ++ [t]).filter
      (fun ts => t - 60000 ≤ ts) ≠ [] := by
    intro hcon
    rw [hcon] at hmem
    exact (List.not_mem_nil t) hmem
  cases g with
  | true =>
    simp only [checkRateLimit, Bool.cond_true]
    rw [lookup_gcSweep _ _ _ _ hset hne]
    simpa using hmem
  | false =>
    simp only [checkRateLimit, Bool.cond_false]
    rw [hset]
    simp

/-- Once the window has elapsed past every recorded timestamp of the site, the
next check is admitted again. -/
theorem rl_resumes (g : Bool) (lm : List (String × List Int)) (site : String) (t : Int)
    (h : ∀ ts ∈ (lookupAssoc lm site).getD [], ts < t - 60000) :
    (checkRateLimit g lm site t).1 = true := by
  have hnil : ((lookupAssoc lm site).getD []).filter (fun ts => t - 60000 ≤ ts) = [] := by
    rw [List.filter_eq_nil_iff]
    intro a ha
    have := h a ha
    simp only [decide_eq_true_eq]
    omega
  simp only [checkRateLimit, hnil]
  simp

/-- Invariant run of the fold underlying `runChecks`: starting from a recorded
list `prev` that every upcoming instant still sees inside its window, the i-th
of the upcoming checks is admitted exactly while `prev.length + i + 1 ≤ 60`,
and the site entry grows by one timestamp per check. -/
theorem runChecks_aux (site : String) :
    ∀ (times : List Int) (lm : List (String × List Int)) (prev : List Int) (acc : List Bool),
      (lookupAssoc lm site).getD [] = prev →
      (∀ x ∈ prev, ∀ t ∈ times, t - 60000 ≤ x) →
      times.Pairwise (· ≤ ·) →
      (∀ a ∈ times, ∀ b ∈ times, a - b ≤ 60000) →
      (times.foldl (fun acc2 t =>
          let r := checkRateLimit false acc2.2 site t
          (acc2.1 ++ [r.1], r.2)) (acc, lm)).1
        = acc ++ (List.range times.length).map (fun i => decide (prev.length + i + 1 ≤ 60)) := by
  intro times
  induction times with
  | nil =>
    intro lm prev acc _ _ _ _
    simp
  | cons t0 rest ih =>
    intro lm prev acc h1 h2 h3 h4
    have hfilter : prev.filter (fun ts => t0 - 60000 ≤ ts) = prev := by
      rw [List.filter_eq_self]
      intro x hx
      have := h2 x hx t0 (by simp)
      simpa using this
    have hstep : checkRateLimit false lm site t0
        = (decide (prev.length + 1 ≤ 60), setAssoc lm site (prev ++ [t0])) := by
      simp only [checkRateLimit, h1, hfilter, Bool.cond_false]
      simp
    have h1n : (lookupAssoc (setAssoc lm site (prev ++ [t0])) site).getD [] = prev ++ [t0] := by
      simp [lookup_setAssoc_self]
    have h2n : ∀ x ∈ prev ++ [t0], ∀ t ∈ rest, t - 60000 ≤ x := by
      intro x hx t ht
      rcases List.mem_append.mp hx with hx1 | hx1
      · exact h2 x hx1 t (List.mem_cons_of_mem _ ht)
      · have hx0 : x = t0 := by simpa using hx1
        have hb := h4 t (List.mem_cons_of_mem _ ht) t0 (List.mem_cons_self _ _)
        omega
    have h3n : rest.Pairwise (· ≤ ·) := h3.of_cons
    have h4n : ∀ a ∈ rest, ∀ b ∈ rest, a - b ≤ 60000 := by
      intro a ha b hb
      exact h4 a (List.mem_cons_of_mem _ ha) b (List.mem_cons_of_mem _ hb)
    have := ih (setAssoc lm site (prev ++ [t0])) (prev ++ [t0])
      (acc ++ [decide (prev.length + 1 ≤ 60)]) h1n h2n h3n h4n
    simp only [List.foldl_cons, hstep]
    rw [this]
    have hlen : (prev ++ [t0]).length = prev.length + 1 := by simp
    rw [hlen, List.length_cons, List.range_succ_eq_map, List.map_cons, List.map_map,
      List.append_assoc, List.singleton_append]
    congr 1
    congr 1
    apply List.map_congr_left
    intro i _
    show decide (prev.length + 1 + i + 1 ≤ 60) = decide (prev.length + (i + 1) + 1 ≤ 60)
    exact decide_eq_decide.mpr (by omega)

/-- C5: for a site with no recorded attempts, a run of checks whose instants
are nondecreasing and all within one 60-second window admits exactly the first
60 and rejects from the 61st on; every check records the instant of the
attempt whatever the outcome and whether or not cleanup runs; and once the
window has elapsed past all recorded timestamps, admission resumes. -/
theorem claim_C5_rate_limiter (site : String) (times : List Int)
    (lm0 : List (String × List Int))
    (h0 : (lookupAssoc lm0 site).getD [] = [])
    (hsorted : times.Pairwise (· ≤ ·))
    (hspan : ∀ a ∈ times, ∀ b ∈ times, a - b ≤ 60000) :
    (runChecks false site times lm0).1
        = (List.range times.length).map (fun i => decide (i < 60)) ∧
    (∀ (g : Bool) (lm : List (String × List Int)) (t : Int),
        t ∈ (lookupAssoc (checkRateLimit g lm site t).2 site).getD []) ∧
    (∀ (g : Bool) (lm : List (String × List Int)) (t : Int),
        (∀ ts ∈ (lookupAssoc lm site).getD [], ts < t - 60000) →
        (checkRateLimit g lm site t).1 = true) := by
  refine ⟨?_, fun g lm t => rl_records g lm site t, fun g lm t h => rl_resumes g lm site t h⟩
  have haux := runChecks_aux site times lm0 [] [] h0 (by simp) hsorted hspan
  simp only [runChecks]
  rw [haux]
  simp only [List.length_nil, List.nil_append]
  congr 1
  funext i
  exact decide_eq_decide.mpr (by omega)

/-- C5 witness: 61 checks for site acme at the same instant from a fresh
state; the first 60 are admitted and the 61st is rejected. -/
theorem claim_C5_rate_limiter_witness :
    ((lookupAssoc ([] : List (String × List Int)) "acme").getD [] = []) ∧
    (List.replicate 61 (0 : Int)).Pairwise (· ≤ ·) ∧
    (∀ a ∈ List.replicate 61 (0 : Int), ∀ b ∈ List.replicate 61 (0 : Int), a - b ≤ 60000) ∧
    ((runChecks false "acme" (List.replicate 61 (0 : Int)) []).1
        = (List.range 61).map (fun i => decide (i < 60)) ∧
     (∀ (g : Bool) (lm : List (String × List Int)) (t : Int),
        t ∈ (lookupAssoc (checkRateLimit g lm "acme" t).2 "acme").getD []) ∧
     (∀ (g : Bool) (lm : List (String × List Int)) (t : Int),
        (∀ ts ∈ (lookupAssoc lm "acme").getD [], ts < t - 60000) →
        (checkRateLimit g lm "acme" t).1 = true)) := by
  have hp : (List.replicate 61 (0 : Int)).Pairwise (· ≤ ·) :=
    List.pairwise_replicate.mpr (Or.inr (le_refl 0))
  have hs : ∀ a ∈ List.replicate 61 (0 : Int), ∀ b ∈ List.replicate 61 (0 : Int),
      a - b ≤ 60000 := by
    intro a ha b hb
    rw [List.eq_of_mem_replicate ha, List.eq_of_mem_replicate hb]
    omega
  exact ⟨rfl, hp, hs,
    claim_C5_rate_limiter "acme" (List.replicate 61 (0 : Int)) [] rfl hp hs⟩

/- ==================================================================
   C1: normalize-then-key fingerprinting
   ================================================================== -/

theorem leadsWith_iff (p : List Char) : ∀ s : List Char,
    leadsWith p s = true ↔ ∃ t, s = p ++ t := by
  induction p with
  | nil =>
    intro s
    simp [leadsWith]
  | cons a as ih =>
    intro s
    cases s with
    | nil =>
      simp [leadsWith]
    | cons b bs =>
      simp only [leadsWith, Bool.and_eq_true, decide_eq_true_eq, ih bs]
      constructor
      · rintro ⟨hab, t, ht⟩
        exact ⟨t, by rw [← hab, ht]; rfl⟩
      · rintro ⟨t, ht⟩
        simp only [List.cons_append, List.cons.injEq] at ht
        exact ⟨ht.1.symm, t, ht.2⟩

theorem leadsWith_append (p t : List Char) : leadsWith p (p ++ t) = true :=
  (leadsWith_iff p (p ++ t)).mpr ⟨t, rfl⟩

/-- With no occurrence of the separator anywhere, JS split yields one segment. -/
theorem jsSplitGo_no_occ (sep : List Char) (hsep : sep ≠ []) :
    ∀ (s acc : List Char), (∀ k, leadsWith sep (s.drop k) = false) →
      jsSplitGo sep s acc = [acc ++ s] := by
  intro s
  induction s with
  | nil =>
    intro acc h
    rw [jsSplitGo]
    have h0 := h 0
    simp only [List.drop_nil] at h0
    simp [h0]
  | cons c rest ih =>
    intro acc h
    have h0 := h 0
    rw [List.drop_zero] at h0
    rw [jsSplitGo, dif_neg (by rw [h0]; simp)]
    show jsSplitGo sep rest (acc ++ [c]) = [acc ++ c :: rest]
    rw [ih (acc ++ [c]) (fun k => by simpa using h (k + 1))]
    simp

/-- With its first occurrence of the separator right after `p`, JS split emits
`p` and continues after the separator. -/
theorem jsSplitGo_first_occ (sep : List Char) (hsep : sep ≠ []) :
    ∀ (p q acc : List Char),
      (∀ k, k < p.length → leadsWith sep ((p ++ (sep ++ q)).drop k) = false) →
      jsSplitGo sep (p ++ (sep ++ q)) acc = (acc ++ p) :: jsSplit sep q := by
  intro p
  induction p with
  | nil =>
    intro q acc _
    simp only [List.nil_append]
    rw [jsSplitGo]
    rw [dif_pos ⟨leadsWith_append sep q, hsep⟩]
    rw [List.drop_left]
    simp [jsSplit]
  | cons c p2 ih =>
    intro q acc h
    have h0 := h 0 (by simp)
    rw [List.drop_zero] at h0
    rw [jsSplitGo, dif_neg (by rw [h0]; simp)]
    show jsSplitGo sep (p2 ++ (sep ++ q)) (acc ++ [c]) = (acc ++ c :: p2) :: jsSplit sep q
    rw [ih q (acc ++ [c]) (fun k hk => by
      have hkk := h (k + 1) (by simpa using Nat.succ_lt_succ hk)
      rwa [List.cons_append, List.drop_succ_cons] at hkk)]
    simp

/-- In `X ++ , :: Y = U ++ , :: V` with comma-free `X` and `U`, the splits
agree. -/
theorem unique_comma_split : ∀ (X U Y V : List Char),
    X ++ ',' :: Y = U ++ ',' :: V → ¬ (',' ∈ X) → ¬ (',' ∈ U) → X = U := by
  intro X
  induction X with
  | nil =>
    intro U Y V h _ hU
    cases U with
    | nil => rfl
    | cons d U2 =>
      simp only [List.nil_append, List.cons_append, List.cons.injEq] at h
      exact absurd (by rw [← h.1]; exact List.mem_cons_self _ _) hU
  | cons c X2 ih =>
    intro U Y V h hX hU
    cases U with
    | nil =>
      simp only [List.cons_append, List.nil_append, List.cons.injEq] at h
      exact absurd (by rw [h.1]; exact List.mem_cons_self _ _) hX
    | cons d U2 =>
      simp only [List.cons_append, List.cons.injEq] at h
      rw [h.1, ih U2 Y V h.2 (fun hm => hX (List.mem_cons_of_mem _ hm))
        (fun hm => hU (List.mem_cons_of_mem _ hm))]

/-- A comma-free list contains no occurrence of `base64,`. -/
theorem no_occ_of_commaless (s : List Char) (h : ¬ (',' ∈ s)) :
    ∀ k, leadsWith ("base64,".data) (s.drop k) = false := by
  intro k
  by_contra hcon
  have hlw : leadsWith ("base64,".data) (s.drop k) = true := by
    revert hcon
    cases leadsWith ("base64,".data) (s.drop k) <;> simp
  obtain ⟨t, ht⟩ := (leadsWith_iff _ _).mp hlw
  have hmem : ',' ∈ s.drop k := by
    rw [ht]
    exact List.mem_append.mpr (Or.inl (by decide))
  exact h (List.drop_subset _ _ hmem)

/-- Before the marker that follows `P`, no occurrence of `base64,` starts
inside `P` when both `P` and the payload are comma-free. -/
theorem first_occ_base64 (P Q : List Char) (hP : ¬ (',' ∈ P)) (hQ : ¬ (',' ∈ Q)) :
    ∀ k, k < P.length →
      leadsWith ("base64,".data) ((P ++ ("base64,".data ++ Q)).drop k) = false := by
  intro k hk
  by_contra hcon
  have hlw : leadsWith ("base64,".data) ((P ++ ("base64,".data ++ Q)).drop k) = true := by
    revert hcon
    cases leadsWith ("base64,".data) ((P ++ ("base64,".data ++ Q)).drop k) <;> simp
  obtain ⟨t, ht⟩ := (leadsWith_iff _ _).mp hlw
  have h1 : P ++ ("base64,".data ++ Q)
      = (P ++ ("base64,".data ++ Q)).take k ++ ("base64,".data ++ t) := by
    conv_lhs => rw [← List.take_append_drop k (P ++ ("base64,".data ++ Q))]
    rw [ht]
  have hsepsplit : ("base64,".data : List Char) = "base64".data ++ [','] := by decide
  have h2 : (P ++ "base64".data) ++ ',' :: Q
      = ((P ++ ("base64,".data ++ Q)).take k ++ "base64".data) ++ ',' :: t := by
    have lhs : P ++ ("base64,".data ++ Q) = (P ++ "base64".data) ++ ',' :: Q := by
      rw [hsepsplit]
      simp [List.append_assoc]
    have rhs : (P ++ ("base64,".data ++ Q)).take k ++ ("base64,".data ++ t)
        = ((P ++ ("base64,".data ++ Q)).take k ++ "base64".data) ++ ',' :: t := by
      rw [hsepsplit]
      simp [List.append_assoc]
    rw [← lhs, ← rhs]
    exact h1
  have htake : (P ++ ("base64,".data ++ Q)).take k = P.take k := by
    rw [List.take_append_eq_append_take]
    rw [show k - P.length = 0 from by omega]
    simp
  have hXfree : ¬ (',' ∈ P ++ "base64".data) := by
    intro hm
    rcases List.mem_append.mp hm with hm1 | hm1
    · exact hP hm1
    · revert hm1; decide
  have hUfree : ¬ (',' ∈ (P ++ ("base64,".data ++ Q)).take k ++ "base64".data) := by
    intro hm
    rcases List.mem_append.mp hm with hm1 | hm1
    · rw [htake] at hm1
      exact hP (List.take_subset _ _ hm1)
    · revert hm1; decide
  have h3 := unique_comma_split _ _ _ _ h2 hXfree hUfree
  have h4 := congrArg List.length h3
  rw [htake] at h4
  simp only [List.length_append, List.length_take] at h4
  omega

/-- b64Chars content contains neither a comma nor a colon. -/
theorem b64Chars_no_comma (b : String) (hb : b64Chars b = true) : ¬ (',' ∈ b.data) := by
  intro hm
  have := List.all_eq_true.mp hb _ hm
  revert this
  decide

theorem b64Chars_no_colon (b : String) (hb : b64Chars b = true) : ¬ (':' ∈ b.data) := by
  intro hm
  have := List.all_eq_true.mp hb _ hm
  revert this
  decide

/-- Stripping is the identity on bare base64 content. -/
theorem stripDataUrl_bare (b : String) (hb : b64Chars b = true) : stripDataUrl b = b := by
  unfold stripDataUrl
  rw [if_neg ?_]
  intro hlead
  obtain ⟨t, ht⟩ := (leadsWith_iff _ _).mp hlead
  have : (':' : Char) ∈ b.data := by
    rw [ht]
    exact List.mem_append.mpr (Or.inl (by decide))
  exact b64Chars_no_colon b hb this

/-- Stripping removes exactly the data-URL wrapper from wrapped base64
content whenever the mime part carries no comma. -/
theorem stripDataUrl_dataUrl (mime b : String)
    (hm : ¬ (',' ∈ mime.data)) (hb : b64Chars b = true) :
    stripDataUrl (mkDataUrl mime b) = b := by
  have hbc := b64Chars_no_comma b hb
  unfold stripDataUrl mkDataUrl
  have hdata : (String.mk ("data:".data ++ mime.data ++ ";base64,".data ++ b.data)).data
      = "data:".data ++ (mime.data ++ (";base64,".data ++ b.data)) := by
    simp [List.append_assoc]
  rw [hdata]
  rw [if_pos (leadsWith_append "data:".data _)]
  have hassoc : "data:".data ++ (mime.data ++ (";base64,".data ++ b.data))
      = ("data:".data ++ mime.data ++ [';']) ++ ("base64,".data ++ b.data) := by
    have hx : (";base64,".data : List Char) = ';' :: "base64,".data := by decide
    rw [hx]
    simp [List.append_assoc]
  rw [hassoc]
  have hPfree : ¬ (',' ∈ "data:".data ++ mime.data ++ [';']) := by
    intro hmem
    rcases List.mem_append.mp hmem with hm1 | hm1
    · rcases List.mem_append.mp hm1 with hm2 | hm2
      · revert hm2; decide
      · exact hm hm2
    · revert hm1; decide
  rw [jsSplit, jsSplitGo_first_occ "base64,".data (by decide) _ _ []
    (first_occ_base64 _ _ hPfree hbc)]
  rw [jsSplit, jsSplitGo_no_occ "base64,".data (by decide) _ []
    (no_occ_of_commaless _ hbc)]
  simp

theorem jsOrS_some_ne (s t : String) (h : s ≠ "") : jsOrS (some s) t = s := by
  simp [jsOrS, h]

theorem mkDataUrl_ne_empty (mime b : String) : mkDataUrl mime b ≠ "" := by
  intro h
  have := congrArg String.data h
  simp [mkDataUrl] at this

/-- The two wrappings of the same content validate identically. -/
theorem validate_wrap_eq (image : ImagePayload) (mime b : String)
    (hb : b64Chars b = true) (hne : b ≠ "") (hm : ¬ (',' ∈ mime.data)) :
    validateImagePayload { image with base64 := some (mkDataUrl mime b) }
      = validateImagePayload { image with base64 := some b } := by
  unfold validateImagePayload
  show validateCore (stripDataUrl (jsOrS (some (mkDataUrl mime b)) (jsOrS image.image_base64 "")))
      image.url image.width image.height image.filename image.mime_type
    = validateCore (stripDataUrl (jsOrS (some b) (jsOrS image.image_base64 "")))
      image.url image.width image.height image.filename image.mime_type
  rw [jsOrS_some_ne _ _ (mkDataUrl_ne_empty mime b), jsOrS_some_ne _ _ hne,
    stripDataUrl_dataUrl mime b hm hb, stripDataUrl_bare b hb]

/-- The normalized payload produced by a validation that found content. -/
theorem validateCore_normalized (rawBase64 : String) (iurl : Option String)
    (iw ihh : Option Rat) (ifn im : Option String)
    (hcontent : rawBase64 ≠ "" ∨ jsTruthyS iurl = true) :
    (validateCore rawBase64 iurl iw ihh ifn im).normalized
      = some { base64 := if rawBase64 ≠ "" then some rawBase64 else none,
               url := if jsTruthyS iurl = true then iurl else none,
               width := numOrNull iw, height := numOrNull ihh,
               filename := if jsTruthyS ifn then ifn else none,
               mime_type := jsOrS im (jsOrS
                 (if jsTruthyS iurl then some (guessMimeFromUrl (jsOrS iurl "")) else none)
                 "image/jpeg") } := by
  have hcond : ¬ (¬ rawBase64 ≠ "" ∧ ¬ jsTruthyS iurl = true) := by
    intro hand
    rcases hcontent with h | h
    · exact hand.1 h
    · exact hand.2 h
  simp only [validateCore]
  rw [if_neg hcond]

/-- The normalized base64 of a validated bare-base64 payload is the content
itself. -/
theorem validate_normalized_base64 (image : ImagePayload) (b : String)
    (hb : b64Chars b = true) (hne : b ≠ "") (n : NormalizedImage)
    (hnorm : (validateImagePayload { image with base64 := some b }).normalized = some n) :
    n.base64 = some b := by
  have hval2 : validateImagePayload { image with base64 := some b }
      = validateCore b image.url image.width image.height image.filename image.mime_type := by
    unfold validateImagePayload
    show validateCore (stripDataUrl (jsOrS (some b) (jsOrS image.image_base64 ""))) _ _ _ _ _ = _
    rw [jsOrS_some_ne _ _ hne, stripDataUrl_bare b hb]
  rw [hval2, validateCore_normalized b _ _ _ _ _ (Or.inl hne)] at hnorm
  have hn := Option.some.inj hnorm
  rw [← hn]
  simp [hne]

/-- The cache key of a normalized payload carrying base64 content. -/
theorem cacheKeyOf_some (hash : String → String) (n : NormalizedImage) (b : String)
    (hnb : n.base64 = some b) (hne : b ≠ "") :
    cacheKeyOf hash n = some (hash b) := by
  unfold cacheKeyOf
  rw [hnb, jsOrS_some_ne _ _ hne, if_pos hne]

/-- C1: any data-URL prefix is stripped before hashing — the wrapped and the
bare form of the same content validate identically, the derived fingerprint is
the hash of the post-normalization base64, and the route both consults the
cache (get) and refreshes it (set) under exactly that post-normalization
key. -/
theorem claim_C1_normalize_then_key (env : RouteEnv) (req : Req) (st : RouteState)
    (image : ImagePayload) (mime b : String) (n : NormalizedImage)
    (hb : b64Chars b = true) (hne : b ≠ "") (hm : ¬ (',' ∈ mime.data))
    (himg : req.image = { image with base64 := some b })
    (hquota : enforceQuota env.getLimits env.nowDate st.db (licenseKeyOf req) 1 = .ok ())
    (hrl : (checkRateLimit env.rateGc st.rateLimits (siteKeyOf req) env.nowMs).1 = true)
    (hval : (validateImagePayload req.image).errors = [])
    (hnorm : (validateImagePayload req.image).normalized = some n)
    (hbp : bypassOf req = false)
    (hredis : st.redis = none) :
    validateImagePayload { image with base64 := some (mkDataUrl mime b) }
      = validateImagePayload { image with base64 := some b } ∧
    cacheKeyOf env.hash n = some (env.hash b) ∧
    (∀ payload, lookupAssoc st.resultCache (env.hash b) = some payload →
      (handleAltText env req st).1 = .cachedHit payload) ∧
    (lookupAssoc st.resultCache (env.hash b) = none →
      (handleAltText env req st).1
          = .freshResult env.gen.altText env.gen.usage (env.gen.meta.bind (fun m => m.modelUsed)) ∧
      (handleAltText env req st).2.resultCache
        = setAssoc st.resultCache (env.hash b)
            { altText := env.gen.altText,
              warnings := (validateImagePayload req.image).warnings,
              usage := env.gen.usage, meta := env.gen.meta }) := by
  have hnb : n.base64 = some b := by
    apply validate_normalized_base64 image b hb hne n
    rw [← himg]
    exact hnorm
  have hkeyn : cacheKeyOf env.hash n = some (env.hash b) := cacheKeyOf_some _ _ _ hnb hne
  have hschema : schemaRefineOk req.image = true := by
    rw [himg]
    simp [schemaRefineOk, jsTruthyS, hne]
  refine ⟨validate_wrap_eq image mime b hb hne hm, hkeyn, ?_, ?_⟩
  · intro payload hpay
    simp only [handleAltText, hschema, hquota, hrl, hval, hnorm, hkeyn, hbp, hredis, hpay,
      eq_self_iff_true, not_true, if_false, Bool.true_eq_false, Bool.false_eq_true, if_true]
  · intro hmiss
    constructor <;>
      simp only [handleAltText, hschema, hquota, hrl, hval, hnorm, hkeyn, hbp, hredis, hmiss,
        eq_self_iff_true, not_true, if_false, Bool.true_eq_false, Bool.false_eq_true, if_true]

/-- Full evaluation of the validator on the concrete witness payload: no
errors, the two advisory warnings, and the normalized form `wNorm`. -/
theorem wReq_validate :
    validateImagePayload wReq.image
      = { errors := [],
          warnings := ["Width and height are missing; include them to keep token costs predictable.",
                       "Base64 payload is very small; ensure the image is not truncated."],
          normalized := some wNorm } := by
  have h1 : validateImagePayload wReq.image = validateCore "QUJD" none none none none none := rfl
  rw [h1]
  have e1 : jsRound ((("QUJD".length : Nat) : Rat) * 0.75) = 3 := by
    rw [show ("QUJD".length : Nat) = 4 from rfl]
    norm_num [jsRound]
  have e2 : jsRound (((3 : Int) : Rat) / 1024) = 0 := by norm_num [jsRound]
  simp only [validateCore, e1, e2]
  rw [if_neg (by decide)]
  have h05 : (((0 : Int) : Rat) < 0.5) := by norm_num
  simp only [h05]
  decide

/-- C1 witness: the statement applied to a concrete request whose cache holds
an entry under the post-normalization key; all hypotheses hold by
computation. -/
theorem claim_C1_normalize_then_key_witness :
    b64Chars "QUJD" = true ∧
    ("QUJD" : String) ≠ "" ∧
    ¬ ((',' : Char) ∈ "image/png".data) ∧
    wReq.image = { wImage with base64 := some "QUJD" } ∧
    enforceQuota wEnv.getLimits wEnv.nowDate wStHit.db (licenseKeyOf wReq) 1 = .ok () ∧
    (checkRateLimit wEnv.rateGc wStHit.rateLimits (siteKeyOf wReq) wEnv.nowMs).1 = true ∧
    (validateImagePayload wReq.image).errors = [] ∧
    (validateImagePayload wReq.image).normalized = some wNorm ∧
    bypassOf wReq = false ∧
    wStHit.redis = none ∧
    (validateImagePayload { wImage with base64 := some (mkDataUrl "image/png" "QUJD") }
        = validateImagePayload { wImage with base64 := some "QUJD" } ∧
     cacheKeyOf wEnv.hash wNorm = some (wEnv.hash "QUJD") ∧
     (∀ payload, lookupAssoc wStHit.resultCache (wEnv.hash "QUJD") = some payload →
       (handleAltText wEnv wReq wStHit).1 = .cachedHit payload) ∧
     (lookupAssoc wStHit.resultCache (wEnv.hash "QUJD") = none →
       (handleAltText wEnv wReq wStHit).1
           = .freshResult wEnv.gen.altText wEnv.gen.usage (wEnv.gen.meta.bind (fun m => m.modelUsed)) ∧
       (handleAltText wEnv wReq wStHit).2.resultCache
         = setAssoc wStHit.resultCache (wEnv.hash "QUJD")
             { altText := wEnv.gen.altText,
               warnings := (validateImagePayload wReq.image).warnings,
               usage := wEnv.gen.usage, meta := wEnv.gen.meta })) :=
  ⟨by decide, by decide, by decide, by decide, rfl, by decide,
    by rw [wReq_validate], by rw [wReq_validate], by decide, rfl,
    claim_C1_normalize_then_key wEnv wReq wStHit wImage "image/png" "QUJD" wNorm
      (by decide) (by decide) (by decide) (by decide) rfl (by decide)
      (by rw [wReq_validate]) (by rw [wReq_validate]) (by decide) rfl⟩

/- ==================================================================
   C6: cache bypass (regenerate) semantics
   ================================================================== -/

/-- C6 counterexample: a request carrying `regenerate: true` against an empty
cache is generated fresh, but the cache entry is NOT refreshed afterwards —
the set step is skipped together with the get step, contradicting the claim
that the set step still occurs. -/
theorem claim_C6_counterexample :
    bypassOf { wReq with bodyRegenerate := some true } = true ∧
    (handleAltText wEnv { wReq with bodyRegenerate := some true } wStMiss).1
      = .freshResult wGen.altText wGen.usage none ∧
    (handleAltText wEnv { wReq with bodyRegenerate := some true } wStMiss).2.resultCache = [] := by
  have hv : validateImagePayload ({ wReq with bodyRegenerate := some true } : Req).image
      = { errors := [],
          warnings := ["Width and height are missing; include them to keep token costs predictable.",
                       "Base64 payload is very small; ensure the image is not truncated."],
          normalized := some wNorm } := wReq_validate
  have hschema : schemaRefineOk ({ wReq with bodyRegenerate := some true } : Req).image = true := by
    decide
  have hquota : enforceQuota wEnv.getLimits wEnv.nowDate wStMiss.db
      (licenseKeyOf { wReq with bodyRegenerate := some true }) 1 = .ok () := rfl
  have hrl : (checkRateLimit wEnv.rateGc wStMiss.rateLimits
      (siteKeyOf { wReq with bodyRegenerate := some true }) wEnv.nowMs).1 = true := by decide
  have hbp : bypassOf { wReq with bodyRegenerate := some true } = true := by decide
  have hck : cacheKeyOf wEnv.hash wNorm = some "QUJD" := by decide
  refine ⟨hbp, ?_, ?_⟩ <;>
    simp only [handleAltText, hschema, hquota, hrl, hv, hbp, hck,
      eq_self_iff_true, not_true, if_false, if_true, Bool.true_eq_false, Bool.false_eq_true] <;>
    rfl

/-- C6 (amended): any of the equivalent bypass signals (body or query
regenerate flag, bypass header, no_cache query) makes the route skip the
cache get step — the response is freshly generated even if a matching entry
exists — and also skip the set step: neither the in-memory cache nor the
redis store is changed by the request. -/
theorem claim_C6_bypass_skips_get_and_set (env : RouteEnv) (req : Req) (st : RouteState)
    (n : NormalizedImage)
    (hschema : schemaRefineOk req.image = true)
    (hquota : enforceQuota env.getLimits env.nowDate st.db (licenseKeyOf req) 1 = .ok ())
    (hrl : (checkRateLimit env.rateGc st.rateLimits (siteKeyOf req) env.nowMs).1 = true)
    (hval : (validateImagePayload req.image).errors = [])
    (hnorm : (validateImagePayload req.image).normalized = some n)
    (hbp : bypassOf req = true) :
    (handleAltText env req st).1
        = .freshResult env.gen.altText env.gen.usage (env.gen.meta.bind (fun m => m.modelUsed)) ∧
    (handleAltText env req st).2.resultCache = st.resultCache ∧
    (handleAltText env req st).2.redis = st.redis := by
  refine ⟨?_, ?_, ?_⟩ <;>
    cases hck : cacheKeyOf env.hash n <;>
      simp only [handleAltText, hschema, hquota, hrl, hval, hnorm, hbp, hck,
        eq_self_iff_true, not_true, if_false, if_true, Bool.true_eq_false, Bool.false_eq_true]

/-- C6 witness: the amended statement applied to a request carrying the
bypass header against a populated cache. -/
theorem claim_C6_bypass_skips_get_and_set_witness :
    schemaRefineOk ({ wReq with headerBypassCache := some "true" } : Req).image = true ∧
    enforceQuota wEnv.getLimits wEnv.nowDate wStHit.db
        (licenseKeyOf { wReq with headerBypassCache := some "true" }) 1 = .ok () ∧
    (checkRateLimit wEnv.rateGc wStHit.rateLimits
        (siteKeyOf { wReq with headerBypassCache := some "true" }) wEnv.nowMs).1 = true ∧
    (validateImagePayload ({ wReq with headerBypassCache := some "true" } : Req).image).errors = [] ∧
    (validateImagePayload ({ wReq with headerBypassCache := some "true" } : Req).image).normalized
        = some wNorm ∧
    bypassOf { wReq with headerBypassCache := some "true" } = true ∧
    ((handleAltText wEnv { wReq with headerBypassCache := some "true" } wStHit).1
        = .freshResult wEnv.gen.altText wEnv.gen.usage (wEnv.gen.meta.bind (fun m => m.modelUsed)) ∧
     (handleAltText wEnv { wReq with headerBypassCache := some "true" } wStHit).2.resultCache
        = wStHit.resultCache ∧
     (handleAltText wEnv { wReq with headerBypassCache := some "true" } wStHit).2.redis
        = wStHit.redis) :=
  ⟨by decide, rfl, by decide,
    by rw [show validateImagePayload ({ wReq with headerBypassCache := some "true" } : Req).image
        = validateImagePayload wReq.image from rfl, wReq_validate],
    by rw [show validateImagePayload ({ wReq with headerBypassCache := some "true" } : Req).image
        = validateImagePayload wReq.image from rfl, wReq_validate],
    by decide,
    claim_C6_bypass_skips_get_and_set wEnv { wReq with headerBypassCache := some "true" } wStHit
      wNorm (by decide) rfl (by decide)
      (by rw [show validateImagePayload ({ wReq with headerBypassCache := some "true" } : Req).image
          = validateImagePayload wReq.image from rfl, wReq_validate])
      (by rw [show validateImagePayload ({ wReq with headerBypassCache := some "true" } : Req).image
          = validateImagePayload wReq.image from rfl, wReq_validate])
      (by decide)⟩

/- ==================================================================
   C7: failed usage insert — no ledger update, result still returned
   ================================================================== -/

/-- C7: when the durable usage-log insert fails, neither the usage log nor
any quota summary is changed, yet the freshly generated result is still
returned to the caller. -/
theorem claim_C7_insert_failure (env : RouteEnv) (req : Req) (st : RouteState)
    (n : NormalizedImage) (K : String)
    (henv : env.usageInsertOk = false)
    (hschema : schemaRefineOk req.image = true)
    (hquota : enforceQuota env.getLimits env.nowDate st.db (licenseKeyOf req) 1 = .ok ())
    (hrl : (checkRateLimit env.rateGc st.rateLimits (siteKeyOf req) env.nowMs).1 = true)
    (hval : (validateImagePayload req.image).errors = [])
    (hnorm : (validateImagePayload req.image).normalized = some n)
    (hbp : bypassOf req = false)
    (hredis : st.redis = none)
    (hkey : cacheKeyOf env.hash n = some K)
    (hmiss : lookupAssoc st.resultCache K = none) :
    (handleAltText env req st).1
        = .freshResult env.gen.altText env.gen.usage (env.gen.meta.bind (fun m => m.modelUsed)) ∧
    (handleAltText env req st).2.db.quota_summaries = st.db.quota_summaries ∧
    (handleAltText env req st).2.db.usage_logs = st.db.usage_logs := by
  refine ⟨?_, ?_, ?_⟩ <;>
    simp only [handleAltText, hschema, hquota, hrl, hval, hnorm, hbp, hredis, hkey, hmiss,
      henv, recordUsage,
      eq_self_iff_true, not_true, if_false, if_true, Bool.true_eq_false, Bool.false_eq_true]

/-- C7 witness: the statement applied to a request against an empty cache with
a failing usage-log insert. -/
theorem claim_C7_insert_failure_witness :
    ({ wEnv with usageInsertOk := false } : RouteEnv).usageInsertOk = false ∧
    schemaRefineOk wReq.image = true ∧
    enforceQuota ({ wEnv with usageInsertOk := false } : RouteEnv).getLimits
        ({ wEnv with usageInsertOk := false } : RouteEnv).nowDate wStMiss.db
        (licenseKeyOf wReq) 1 = .ok () ∧
    (checkRateLimit ({ wEnv with usageInsertOk := false } : RouteEnv).rateGc wStMiss.rateLimits
        (siteKeyOf wReq) ({ wEnv with usageInsertOk := false } : RouteEnv).nowMs).1 = true ∧
    (validateImagePayload wReq.image).errors = [] ∧
    (validateImagePayload wReq.image).normalized = some wNorm ∧
    bypassOf wReq = false ∧
    wStMiss.redis = none ∧
    cacheKeyOf ({ wEnv with usageInsertOk := false } : RouteEnv).hash wNorm = some "QUJD" ∧
    lookupAssoc wStMiss.resultCache "QUJD" = none ∧
    ((handleAltText { wEnv with usageInsertOk := false } wReq wStMiss).1
        = .freshResult wGen.altText wGen.usage (wGen.meta.bind (fun m => m.modelUsed)) ∧
     (handleAltText { wEnv with usageInsertOk := false } wReq wStMiss).2.db.quota_summaries
        = wStMiss.db.quota_summaries ∧
     (handleAltText { wEnv with usageInsertOk := false } wReq wStMiss).2.db.usage_logs
        = wStMiss.db.usage_logs) :=
  ⟨rfl, by decide, rfl, by decide, by rw [wReq_validate], by rw [wReq_validate],
    by decide, rfl, by decide, by decide,
    claim_C7_insert_failure { wEnv with usageInsertOk := false } wReq wStMiss wNorm "QUJD"
      rfl (by decide) rfl (by decide) (by rw [wReq_validate]) (by rw [wReq_validate])
      (by decide) rfl (by decide) (by decide)⟩

/- ==================================================================
   C8: cache store failures degrade, never fail the request
   ================================================================== -/

/-- C8: a throwing redis get is treated as a miss — the request proceeds to
generation and returns the fresh result even though an entry exists — and a
rejected redis set is discarded: the response is still the fresh result and
the stored entries are untouched. -/
theorem claim_C8_store_failures (env : RouteEnv) (req : Req) (st : RouteState)
    (n : NormalizedImage) (K : String)
    (hschema : schemaRefineOk req.image = true)
    (hquota : enforceQuota env.getLimits env.nowDate st.db (licenseKeyOf req) 1 = .ok ())
    (hrl : (checkRateLimit env.rateGc st.rateLimits (siteKeyOf req) env.nowMs).1 = true)
    (hval : (validateImagePayload req.image).errors = [])
    (hnorm : (validateImagePayload req.image).normalized = some n)
    (hbp : bypassOf req = false)
    (hkey : cacheKeyOf env.hash n = some K) :
    (∀ r : RedisState, st.redis = some r → r.getFails = true →
      (handleAltText env req st).1
        = .freshResult env.gen.altText env.gen.usage (env.gen.meta.bind (fun m => m.modelUsed))) ∧
    (∀ r : RedisState, st.redis = some r → r.getFails = false → r.setFails = true →
      lookupAssoc r.entries ("alttext:cache:" ++ K) = none →
      (handleAltText env req st).1
          = .freshResult env.gen.altText env.gen.usage (env.gen.meta.bind (fun m => m.modelUsed)) ∧
      (handleAltText env req st).2.redis = st.redis) := by
  constructor
  · intro r hr hget
    simp only [handleAltText, hschema, hquota, hrl, hval, hnorm, hbp, hkey, hr, hget,
      eq_self_iff_true, not_true, if_false, if_true, Bool.true_eq_false, Bool.false_eq_true]
  · intro r hr hget hset hmiss
    refine ⟨?_, ?_⟩ <;>
      simp only [handleAltText, hschema, hquota, hrl, hval, hnorm, hbp, hkey, hr, hget, hset,
        hmiss, eq_self_iff_true, not_true, if_false, if_true, Bool.true_eq_false,
        Bool.false_eq_true]

/-- C8 witness: the statement applied against a redis store holding the
normalized key whose get throws; the request still returns the fresh
result. -/
theorem claim_C8_store_failures_witness :
    schemaRefineOk wReq.image = true ∧
    enforceQuota wEnv.getLimits wEnv.nowDate wStRedis.db (licenseKeyOf wReq) 1 = .ok () ∧
    (checkRateLimit wEnv.rateGc wStRedis.rateLimits (siteKeyOf wReq) wEnv.nowMs).1 = true ∧
    (validateImagePayload wReq.image).errors = [] ∧
    (validateImagePayload wReq.image).normalized = some wNorm ∧
    bypassOf wReq = false ∧
    cacheKeyOf wEnv.hash wNorm = some "QUJD" ∧
    ((∀ r : RedisState, wStRedis.redis = some r → r.getFails = true →
      (handleAltText wEnv wReq wStRedis).1
        = .freshResult wEnv.gen.altText wEnv.gen.usage (wEnv.gen.meta.bind (fun m => m.modelUsed))) ∧
    (∀ r : RedisState, wStRedis.redis = some r → r.getFails = false → r.setFails = true →
      lookupAssoc r.entries ("alttext:cache:" ++ "QUJD") = none →
      (handleAltText wEnv wReq wStRedis).1
          = .freshResult wEnv.gen.altText wEnv.gen.usage (wEnv.gen.meta.bind (fun m => m.modelUsed)) ∧
      (handleAltText wEnv wReq wStRedis).2.redis = wStRedis.redis)) :=
  ⟨by decide, rfl, by decide, by rw [wReq_validate], by rw [wReq_validate], by decide, by decide,
    claim_C8_store_failures wEnv wReq wStRedis wNorm "QUJD"
      (by decide) rfl (by decide) (by rw [wReq_validate]) (by rw [wReq_validate])
      (by decide) (by decide)⟩

/- ==================================================================
   C2: quota enforcement
   ================================================================== -/

/-- C2: for a known license, `enforceQuota` fails exactly when
`total_credits_used + creditsNeeded > total_limit`, succeeds whenever the sum
stays within the limit (in particular when it equals the limit, so the last
credit is usable), and a failure carries the machine-readable QUOTA_EXCEEDED
code together with credits_used, total_limit and reset_date; the route turns
such a failure into the quota-exceeded response carrying exactly those
fields. -/
theorem claim_C2_enforce_quota (getLimits : String → Nat) (now : Date) (db : Db)
    (key : String) (lic : License) (used limit : Nat)
    (hlic : dbSingleLicense db key = some lic)
    (hused : used = (dbMaybeSingleSummary db key
        (computePeriodStart (jsOrNat lic.billing_day_of_month 1) now)).elim 0
        (fun s => s.total_credits_used))
    (hlimit : limit = getLimits lic.plan) :
    (∀ creditsNeeded : Nat,
      (used + creditsNeeded > limit →
        enforceQuota getLimits now db (some key) creditsNeeded
          = .error { code := "QUOTA_EXCEEDED", credits_used := used, total_limit := limit,
                     reset_date := jsAddOneMonth
                       (computePeriodStart (jsOrNat lic.billing_day_of_month 1) now) }) ∧
      (used + creditsNeeded ≤ limit →
        enforceQuota getLimits now db (some key) creditsNeeded = .ok ())) ∧
    (∀ (env : RouteEnv) (req : Req) (st : RouteState) (e : QuotaError),
      schemaRefineOk req.image = true →
      enforceQuota env.getLimits env.nowDate st.db (licenseKeyOf req) 1 = .error e →
      handleAltText env req st
        = (.quotaExceeded (if e.code = "" then "QUOTA_EXCEEDED" else e.code)
            e.credits_used e.total_limit e.reset_date, st)) := by
  constructor
  · intro creditsNeeded
    have hq : enforceQuota getLimits now db (some key) creditsNeeded
        = if used + creditsNeeded > limit then
            .error { code := "QUOTA_EXCEEDED", credits_used := used, total_limit := limit,
                     reset_date := jsAddOneMonth
                       (computePeriodStart (jsOrNat lic.billing_day_of_month 1) now) }
          else .ok () := by
      simp only [enforceQuota, Option.some_bind, hlic, jsOrS_some_empty]
      cases hsum : dbMaybeSingleSummary db key
          (computePeriodStart (jsOrNat lic.billing_day_of_month 1) now) with
      | none =>
        rw [hsum] at hused
        simp only [Option.elim] at hused
        subst hused
        subst hlimit
        rfl
      | some s =>
        rw [hsum] at hused
        simp only [Option.elim] at hused
        subst hused
        subst hlimit
        rfl
    constructor
    · intro hover
      rw [hq, if_pos hover]
    · intro hunder
      rw [hq, if_neg (not_lt.mpr hunder)]
  · intro env req st e hschema hquota
    simp only [handleAltText, hschema, eq_self_iff_true, not_true, if_false, hquota]

/-- C2 witness: the quota statement applied to a concrete store in which the
license LIC has used 49 of 50 credits of the running period. -/
theorem claim_C2_enforce_quota_witness :
    dbSingleLicense wDb "LIC" = some wLicense ∧
    (49 = (dbMaybeSingleSummary wDb "LIC"
        (computePeriodStart (jsOrNat wLicense.billing_day_of_month 1) wNow)).elim 0
        (fun s => s.total_credits_used)) ∧
    (50 = wGetLimits wLicense.plan) ∧
    ((∀ creditsNeeded : Nat,
      (49 + creditsNeeded > 50 →
        enforceQuota wGetLimits wNow wDb (some "LIC") creditsNeeded
          = .error { code := "QUOTA_EXCEEDED", credits_used := 49, total_limit := 50,
                     reset_date := jsAddOneMonth
                       (computePeriodStart (jsOrNat wLicense.billing_day_of_month 1) wNow) }) ∧
      (49 + creditsNeeded ≤ 50 →
        enforceQuota wGetLimits wNow wDb (some "LIC") creditsNeeded = .ok ())) ∧
    (∀ (env : RouteEnv) (req : Req) (st : RouteState) (e : QuotaError),
      schemaRefineOk req.image = true →
      enforceQuota env.getLimits env.nowDate st.db (licenseKeyOf req) 1 = .error e →
      handleAltText env req st
        = (.quotaExceeded (if e.code = "" then "QUOTA_EXCEEDED" else e.code)
            e.credits_used e.total_limit e.reset_date, st))) :=
  ⟨by decide, by decide, rfl,
    claim_C2_enforce_quota wGetLimits wNow wDb "LIC" wLicense 49 50
      (by decide) (by decide) rfl⟩

/- ==================================================================
   C10: unknown license is logged but never summarized
   ================================================================== -/

/-- C10: when no license row exists for the key, a successful usage insert
leaves the usage-log entry durably recorded while the quota summaries (and
the licenses) are untouched, and no error is reported. -/
theorem claim_C10_unknown_license (getLimits : String → Nat) (now : Date) (db : Db)
    (a : UsageArgs) (k : String)
    (hk : a.licenseKey = some k) (hk0 : k ≠ "")
    (hno : db.licenses.filter (fun l => l.license_key == k) = []) :
    (recordUsage true getLimits now db a).1.quota_summaries = db.quota_summaries ∧
    (recordUsage true getLimits now db a).1.usage_logs = db.usage_logs ++ [usagePayload a] ∧
    (recordUsage true getLimits now db a).1.licenses = db.licenses ∧
    (recordUsage true getLimits now db a).2 = none := by
  have hlic : dbSingleLicense { db with usage_logs := db.usage_logs ++ [usagePayload a] } k
      = none := by
    simp only [dbSingleLicense]
    rw [show ({ db with usage_logs := db.usage_logs ++ [usagePayload a] } : Db).licenses
          = db.licenses from rfl, hno]
    rfl
  simp only [recordUsage, hk, if_pos rfl, if_pos hk0, updateQuotaSummary, hlic]
  refine ⟨rfl, rfl, rfl, rfl⟩

/-- C10 witness: recording a 1-credit consumption under the unknown license
key UNKNOWN against the concrete store. -/
theorem claim_C10_unknown_license_witness :
    (consumeArgs "UNKNOWN" "site1").licenseKey = some "UNKNOWN" ∧
    ("UNKNOWN" : String) ≠ "" ∧
    wDb.licenses.filter (fun l => l.license_key == "UNKNOWN") = [] ∧
    ((recordUsage true wGetLimits wNow wDb (consumeArgs "UNKNOWN" "site1")).1.quota_summaries
        = wDb.quota_summaries ∧
     (recordUsage true wGetLimits wNow wDb (consumeArgs "UNKNOWN" "site1")).1.usage_logs
        = wDb.usage_logs ++ [usagePayload (consumeArgs "UNKNOWN" "site1")] ∧
     (recordUsage true wGetLimits wNow wDb (consumeArgs "UNKNOWN" "site1")).1.licenses
        = wDb.licenses ∧
     (recordUsage true wGetLimits wNow wDb (consumeArgs "UNKNOWN" "site1")).2 = none) :=
  ⟨rfl, by decide, by decide,
    claim_C10_unknown_license wGetLimits wNow wDb (consumeArgs "UNKNOWN" "site1") "UNKNOWN"
      rfl (by decide) (by decide)⟩

/- ==================================================================
   C4: sequential consumption accounting
   ================================================================== -/

theorem bumpSite_sum (m : List (String × Nat)) (k : String) (v : Nat) :
    siteSum (bumpSite m k v) = siteSum m + v := by
  induction m with
  | nil => simp [bumpSite, siteSum]
  | cons kv rest ih =>
    obtain ⟨k2, v2⟩ := kv
    by_cases h : k2 = k
    · simp only [bumpSite, if_pos h, siteSum, List.map_cons, List.sum_cons]
      simp [siteSum] at ih ⊢
      omega
    · simp only [bumpSite, if_neg h, siteSum, List.map_cons, List.sum_cons]
      simp [siteSum] at ih ⊢
      omega

/-- The filter over a split list with a single matching row. -/
theorem filter_split (key : String) (ps : Date) (pre post : List QuotaSummary)
    (r : QuotaSummary)
    (hpre : ∀ s ∈ pre, matchesSum key ps s = false)
    (hpost : ∀ s ∈ post, matchesSum key ps s = false)
    (hr : matchesSum key ps r = true) :
    (pre ++ r :: post).filter (matchesSum key ps) = [r] := by
  rw [List.filter_append, List.filter_cons]
  rw [List.filter_eq_nil_iff.mpr (by intro s hs; simp [hpre s hs])]
  rw [List.filter_eq_nil_iff.mpr (by intro s hs; simp [hpost s hs])]
  simp [hr]

/-- Mapping an id-guarded update over a split list touches only the row with
the distinguished id. -/
theorem map_update_split (pre post : List QuotaSummary) (r : QuotaSummary)
    (g : QuotaSummary → QuotaSummary)
    (hpre : ∀ s ∈ pre, s.id ≠ r.id)
    (hpost : ∀ s ∈ post, s.id ≠ r.id) :
    (pre ++ r :: post).map (fun s => if s.id = r.id then g s else s)
      = pre ++ g r :: post := by
  rw [List.map_append, List.map_cons, if_pos rfl]
  congr 1
  · have : pre.map (fun s => if s.id = r.id then g s else s) = pre.map id := by
      apply List.map_congr_left
      intro s hs
      simp [if_neg (hpre s hs)]
    rw [this, List.map_id]
  · congr 1
    have : post.map (fun s => if s.id = r.id then g s else s) = post.map id := by
      apply List.map_congr_left
      intro s hs
      simp [if_neg (hpost s hs)]
    rw [this, List.map_id]

/-- The first recording against a period with no summary row creates the one
row with 1 credit, establishing the invariant. -/
theorem consume_create (getLimits : String → Nat) (now : Date) (key site : String)
    (lic : License) (db : Db)
    (hkey : key ≠ "")
    (hlic : dbSingleLicense db key = some lic)
    (hbound : ∀ s ∈ db.quota_summaries, s.id < db.nextId)
    (hempty : db.quota_summaries.filter
        (matchesSum key (computePeriodStart (jsOrNat lic.billing_day_of_month 1) now)) = []) :
    InvPos key (computePeriodStart (jsOrNat lic.billing_day_of_month 1) now) db.licenses 1
      (consumeOne getLimits now key site db) := by
  have hlic2 : dbSingleLicense { db with usage_logs := db.usage_logs ++
      [usagePayload (consumeArgs key site)] } key = some lic := hlic
  have hnone : dbMaybeSingleSummary { db with usage_logs := db.usage_logs ++
      [usagePayload (consumeArgs key site)] } key
      (computePeriodStart (jsOrNat lic.billing_day_of_month 1) now) = none := by
    simp only [dbMaybeSingleSummary, summariesFor]
    rw [show ({ db with usage_logs := db.usage_logs ++ [usagePayload (consumeArgs key site)] }
        : Db).quota_summaries = db.quota_summaries from rfl, hempty]
    rfl
  have hstep : consumeOne getLimits now key site db
      = updateQuotaSummary getLimits now
          { db with usage_logs := db.usage_logs ++ [usagePayload (consumeArgs key site)] }
          key 1 site := by
    unfold consumeOne recordUsage
    rw [if_pos rfl]
    dsimp only [consumeArgs]
    rw [if_pos hkey]
    rfl
  rw [hstep]
  simp only [updateQuotaSummary, hlic2, hnone]
  refine ⟨rfl, ?_, db.quota_summaries, [], _, rfl, ?_, ?_, ?_, rfl, ?_⟩
  · intro s hs
    dsimp only at hs ⊢
    rcases List.mem_append.mp hs with hs1 | hs1
    · exact Nat.lt_succ_of_lt (hbound s hs1)
    · have hseq : s.id = db.nextId := by
        simp at hs1
        rw [hs1]
      omega
  · intro s hs
    have hmem : matchesSum key
        (computePeriodStart (jsOrNat lic.billing_day_of_month 1) now) s = false := by
      have := List.filter_eq_nil_iff.mp hempty s hs
      simpa using this
    refine ⟨hmem, ?_⟩
    have := hbound s hs
    dsimp only
    omega
  · intro s hs
    simp at hs
  · simp [matchesSum]
  · simp [siteSum]

/-- A recording against a period whose single summary row already records k
credits increments that row to k + 1 credits, preserving the invariant. -/
theorem consume_update (getLimits : String → Nat) (now : Date) (key site : String)
    (lic : License) (L0 : List License) (ps : Date) (db : Db) (k : Nat)
    (hkey : key ≠ "")
    (hlicL : exactlyOne (L0.filter (fun l => l.license_key == key)) = some lic)
    (hps : ps = computePeriodStart (jsOrNat lic.billing_day_of_month 1) now)
    (hInv : InvPos key ps L0 k db) :
    InvPos key ps L0 (k + 1) (consumeOne getLimits now key site db) := by
  obtain ⟨hL, hbound, pre, post, r, hsplit, hpre, hpost, hr, htot, hsum⟩ := hInv
  have hlic2 : dbSingleLicense { db with usage_logs := db.usage_logs ++
      [usagePayload (consumeArgs key site)] } key = some lic := by
    simp only [dbSingleLicense]
    rw [show ({ db with usage_logs := db.usage_logs ++ [usagePayload (consumeArgs key site)] }
        : Db).licenses = db.licenses from rfl, hL]
    exact hlicL
  have hone : dbMaybeSingleSummary { db with usage_logs := db.usage_logs ++
      [usagePayload (consumeArgs key site)] } key ps = some r := by
    simp only [dbMaybeSingleSummary, summariesFor]
    rw [show ({ db with usage_logs := db.usage_logs ++ [usagePayload (consumeArgs key site)] }
        : Db).quota_summaries = db.quota_summaries from rfl, hsplit]
    rw [filter_split key ps pre post r (fun s hs => (hpre s hs).1)
      (fun s hs => (hpost s hs).1) hr]
    rfl
  have hstep : consumeOne getLimits now key site db
      = updateQuotaSummary getLimits now
          { db with usage_logs := db.usage_logs ++ [usagePayload (consumeArgs key site)] }
          key 1 site := by
    unfold consumeOne recordUsage
    rw [if_pos rfl]
    dsimp only [consumeArgs]
    rw [if_pos hkey]
    rfl
  rw [hstep]
  simp only [updateQuotaSummary, hlic2, ← hps, hone]
  rw [show ({ db with usage_logs := db.usage_logs ++ [usagePayload (consumeArgs key site)] }
      : Db).quota_summaries = db.quota_summaries from rfl, hsplit]
  rw [map_update_split pre post r _ (fun s hs => (hpre s hs).2) (fun s hs => (hpost s hs).2)]
  refine ⟨hL, ?_, pre, post, _, rfl, ?_, ?_, ?_, ?_, ?_⟩
  · intro s hs
    dsimp only at hs ⊢
    rcases List.mem_append.mp hs with hs1 | hs1
    · exact hbound s (by rw [hsplit]; exact List.mem_append.mpr (Or.inl hs1))
    · rcases List.mem_cons.mp hs1 with hs2 | hs2
      · have hid : s.id = r.id := by rw [hs2]
        have := hbound r (by rw [hsplit]; exact List.mem_append.mpr (Or.inr (List.mem_cons_self _ _)))
        omega
      · exact hbound s (by rw [hsplit]; exact List.mem_append.mpr (Or.inr (List.mem_cons_of_mem _ hs2)))
  · intro s hs
    exact ⟨(hpre s hs).1, (hpre s hs).2⟩
  · intro s hs
    exact ⟨(hpost s hs).1, (hpost s hs).2⟩
  · simpa [matchesSum] using hr
  · simp [htot]
  · simp [bumpSite_sum, hsum]

/-- Folding further recordings on top of the invariant adds one credit per
listed site. -/
theorem recordUsageN_inv (getLimits : String → Nat) (now : Date) (key : String)
    (lic : License) (L0 : List License) (ps : Date)
    (hkey : key ≠ "")
    (hlicL : exactlyOne (L0.filter (fun l => l.license_key == key)) = some lic)
    (hps : ps = computePeriodStart (jsOrNat lic.billing_day_of_month 1) now) :
    ∀ (sites : List String) (db : Db) (k : Nat),
      InvPos key ps L0 k db →
      InvPos key ps L0 (k + sites.length) (recordUsageN getLimits now key sites db) := by
  intro sites
  induction sites with
  | nil =>
    intro db k h
    simpa [recordUsageN] using h
  | cons s0 rest ih =>
    intro db k h
    have h1 := consume_update getLimits now key s0 lic L0 ps db k hkey hlicL hps h
    have h2 := ih (consumeOne getLimits now key s0 db) (k + 1) h1
    have hfold : recordUsageN getLimits now key (s0 :: rest) db
        = recordUsageN getLimits now key rest (consumeOne getLimits now key s0 db) := rfl
    rw [hfold]
    rw [show k + (s0 :: rest).length = (k + 1) + rest.length from by simp; omega]
    exact h2

/-- C4: starting from a store with no summary for the period, N sequential
successful 1-credit recordings for the same license and period leave exactly
one summary row for the (license, period) pair, with total_credits_used = N
and the per-site usage values summing to N. -/
theorem claim_C4_sequential_consumption (getLimits : String → Nat) (now : Date)
    (db0 : Db) (key : String) (lic : License) (site0 : String) (rest : List String)
    (hkey : key ≠ "")
    (hlic : dbSingleLicense db0 key = some lic)
    (hbound : ∀ s ∈ db0.quota_summaries, s.id < db0.nextId)
    (hempty : summariesFor db0 key
        (computePeriodStart (jsOrNat lic.billing_day_of_month 1) now) = []) :
    ∃ r, summariesFor (recordUsageN getLimits now key (site0 :: rest) db0) key
           (computePeriodStart (jsOrNat lic.billing_day_of_month 1) now) = [r] ∧
         r.total_credits_used = (site0 :: rest).length ∧
         siteSum r.site_usage = (site0 :: rest).length := by
  have h1 := consume_create getLimits now key site0 lic db0 hkey hlic hbound
    (by simpa [summariesFor] using hempty)
  have h2 := recordUsageN_inv getLimits now key lic db0.licenses
    (computePeriodStart (jsOrNat lic.billing_day_of_month 1) now) hkey
    (by simpa [dbSingleLicense] using hlic) rfl rest
    (consumeOne getLimits now key site0 db0) 1 h1
  obtain ⟨hL, hbound2, pre, post, r, hsplit, hpre, hpost, hr, htot, hsum⟩ := h2
  refine ⟨r, ?_, ?_, ?_⟩
  · have hfold : recordUsageN getLimits now key (site0 :: rest) db0
        = recordUsageN getLimits now key rest (consumeOne getLimits now key site0 db0) := rfl
    rw [hfold]
    simp only [summariesFor, hsplit]
    exact filter_split _ _ _ _ _ (fun s hs => (hpre s hs).1) (fun s hs => (hpost s hs).1) hr
  · rw [htot]; simp; omega
  · rw [hsum]; simp; omega

/-- C4 witness: three 1-credit recordings (two sites) against a fresh store
leave one summary row totalling 3 with per-site usage summing to 3. -/
theorem claim_C4_sequential_consumption_witness :
    ("LIC" : String) ≠ "" ∧
    dbSingleLicense wDb0 "LIC" = some wLicense ∧
    (∀ s ∈ wDb0.quota_summaries, s.id < wDb0.nextId) ∧
    summariesFor wDb0 "LIC"
        (computePeriodStart (jsOrNat wLicense.billing_day_of_month 1) wNow) = [] ∧
    (∃ r, summariesFor (recordUsageN wGetLimits wNow "LIC" ("a" :: ["b", "a"]) wDb0) "LIC"
            (computePeriodStart (jsOrNat wLicense.billing_day_of_month 1) wNow) = [r] ∧
          r.total_credits_used = ("a" :: ["b", "a"]).length ∧
          siteSum r.site_usage = ("a" :: ["b", "a"]).length) :=
  ⟨by decide, by decide, by decide, by decide,
    claim_C4_sequential_consumption wGetLimits wNow wDb0 "LIC" wLicense "a" ["b", "a"]
      (by decide) (by decide) (by decide) (by decide)⟩

/- ==================================================================
   C9: admin cache flush
   ================================================================== -/

/-- C9: the flush endpoints evaluated at concrete states.  The admin-router
flush (part_002) empties the in-memory cache and reports the number of
removed entries, and a subsequent lookup of the previously set key misses;
the redis branch deletes exactly the alttext-prefixed keys and reports their
count; the gate refuses a wrong admin key.  The flush endpoint of the
alt-text router, however, reads the map size after clearing it and reports 0
even though it removed an entry — the failing input of the claim. -/
theorem claim_C9_flush_count :
    adminFlushCache (some "s3cret") (some "s3cret") none
        (some [("k1", samplePayload "a"), ("k2", samplePayload "b")])
      = (.flushed 2, none, some []) ∧
    lookupAssoc ([] : List (String × CachePayload)) "k1" = none ∧
    adminFlushCache (some "s3cret") (some "s3cret")
        (some { entries := [("alttext:cache:aa", samplePayload "a"), ("other:bb", samplePayload "b")],
                getFails := false, setFails := false }) none
      = (.flushed 1,
         some { entries := [("other:bb", samplePayload "b")], getFails := false, setFails := false },
         none) ∧
    altTextFlushCache (some "s3cret") (some "wrong") none [("k1", samplePayload "a")]
      = (.unauthorized, none, [("k1", samplePayload "a")]) ∧
    altTextFlushCache (some "s3cret") (some "s3cret") none [("k1", samplePayload "a")]
      = (.flushed 0, none, []) := by
  refine ⟨by decide, by decide, by decide, by decide, by decide⟩

/-- C3 witness: the amended statement applied at billing day 5 and
reference instant Jan 15 2026, where the hypothesis holds. -/
theorem claim_C3_period_arithmetic_witness :
    ((getPeriodBounds 5 ⟨2026, 0, 15⟩).1.day ≤
       daysInMonth (addMonthClamped (getPeriodBounds 5 ⟨2026, 0, 15⟩).1).year
                   (addMonthClamped (getPeriodBounds 5 ⟨2026, 0, 15⟩).1).month) ∧
    ((getPeriodBounds 5 ⟨2026, 0, 15⟩).2 = addMonthClamped (getPeriodBounds 5 ⟨2026, 0, 15⟩).1 ∧
     computePeriodStart 31 ⟨2026, 1, 15⟩ = ⟨2026, 1, 28⟩ ∧
     (getPeriodBounds 31 ⟨2026, 1, 15⟩).2 = ⟨2026, 2, 28⟩ ∧
     addMonthClamped ⟨2026, 1, 28⟩ = ⟨2026, 2, 28⟩) :=
  ⟨by decide, claim_C3_period_arithmetic 5 ⟨2026, 0, 15⟩ (by decide)⟩

end Oppti
